import Mathlib

/-!
# TCP chat server (`src/expr5_1/server.c`): shallow embedding and properties

The server keeps a global table `clients[MAX_CLIENTS]` of `ClientInfo` records,
one handler thread per connection, and talks to sockets with `send`/`close`.

Modelling conventions.

* A C string is the list of its bytes before the terminating NUL (`CStr`).
  String literals of the UTF-8 encoded source file are written `utf8 "..."`.
* The global variables `clients` and `server_running` are the fields of `State`;
  the field `trace` records, oldest first, every `send`, `close` and successful
  `pthread_create` the program performs.
* What the environment decides (does a checked `send` fail, which bytes lie
  behind an unterminated stack buffer) is passed in as an `Env`.
* Console output (`printf`, `perror`) is not modelled.
* Each function below runs atomically; a concurrent execution of the threads
  is a sequence of such steps (`Op`, `run`).
-/

namespace ChatServer

/-! ## Constants -/

/-- Mirrors `#define MAX_CLIENTS 10`. -/
abbrev MAX_CLIENTS : Nat := 10

/-- Mirrors `#define BUFFER_SIZE 1024`. -/
abbrev BUFFER_SIZE : Nat := 1024

/-! ## C strings -/

/-- Bytes of a C string, terminating NUL not included. -/
abbrev CStr := List Nat

/-- UTF-8 bytes of one code point. -/
def utf8EncodeChar (c : Char) : List Nat :=
  let v := c.toNat
  if v ≤ 0x7f then [v]
  else if v ≤ 0x7ff then [0xc0 + v / 64, 0x80 + v % 64]
  else if v ≤ 0xffff then [0xe0 + v / 4096, 0x80 + (v / 64) % 64, 0x80 + v % 64]
  else [0xf0 + v / 262144, 0x80 + (v / 4096) % 64, 0x80 + (v / 64) % 64, 0x80 + v % 64]

/-- Bytes of a string literal of the (UTF-8) source file. -/
def utf8 (s : String) : CStr := s.data.flatMap utf8EncodeChar

/-- Length of a C string: `strlen`. -/
def strlen (s : CStr) : Nat := s.length

/-- Comparison `strncmp(a, b, n)`; the code only tests the result against 0, so
every nonzero result is collapsed to 1. -/
def strncmp (a b : CStr) (n : Nat) : Int := if a.take n = b.take n then 0 else 1

/-- Comparison `strcmp(a, b)`, nonzero results collapsed to 1. -/
def strcmp (a b : CStr) : Int := if a = b then 0 else 1

/-- Length of the initial segment of `s` without any byte of `reject`: `strcspn`. -/
def strcspn (s reject : CStr) : Nat := (s.takeWhile (fun c => !reject.contains c)).length

/-- Offset of the first occurrence of byte `c` in `s`, `none` for `NULL`: `strchr`. -/
def strchr : CStr → Nat → Option Nat
  | [], _ => none
  | b :: s, c => if b = c then some 0 else (strchr s c).map (· + 1)

/-- Result of `snprintf(buf, size, ...)` given the full formatted text: at most
`size - 1` bytes are stored. -/
def snprintf (size : Nat) (formatted : CStr) : CStr := formatted.take (size - 1)

/-- Result of `strncat(dst, src, n)`: at most `n` bytes of `src` are appended. -/
def strncat (dst src : CStr) (n : Nat) : CStr := dst ++ src.take n

/-- Conversion `%d` of a non-negative integer. -/
def fmt_d (n : Nat) : CStr := (Nat.toDigits 10 n).map Char.toNat

/-! ## Data model -/

/-- Peer address (`struct sockaddr_in`), kept abstract. -/
structure sockaddr_in where
  sin_addr : Nat
  sin_port : Nat
deriving DecidableEq, Repr

/-- Mirrors `ClientInfo`; `name` is the C string held in `char name[32]`. -/
structure ClientInfo where
  sockfd : Int
  addr : sockaddr_in
  name : CStr
  active : Int
deriving DecidableEq, Repr

/-- Observable system calls. -/
inductive Event where
  | send (sockfd : Int) (msg : CStr)
  | close (sockfd : Int)
  | spawn (idx : Fin MAX_CLIENTS)
deriving DecidableEq, Repr

/-- Global state of the server process plus the system calls made so far. -/
structure State where
  clients : Fin MAX_CLIENTS → ClientInfo
  server_running : Int
  trace : List Event

/-- Environment choices during one operation. -/
structure Env where
  /-- Does the checked `send` to the socket of slot `i` return a negative value? -/
  send_fails : Fin MAX_CLIENTS → Bool
  /-- Bytes found from `old_name[31]` on, up to the next NUL. -/
  stack : CStr

/-- Outcome of one pass through the body of the receive loop. -/
inductive LoopCtl where
  | next
  | stop
deriving DecidableEq, Repr

/-- Outcome of `recv`: an error (negative result) or the bytes read. -/
inductive RecvResult where
  | error
  | data (bytes : List Nat)
deriving DecidableEq, Repr

/-- State after the initialisation loop of `main` (lines 54-57); globals start zeroed. -/
def init_state : State :=
  { clients := fun _ => { sockfd := -1, addr := ⟨0, 0⟩, name := [], active := 0 },
    server_running := 1,
    trace := [] }

/-! ## System calls and field updates -/

/-- Effect of `send(fd, msg, strlen(msg), 0)`. -/
def sys_send (st : State) (fd : Int) (msg : CStr) : State :=
  { st with trace := st.trace ++ [Event.send fd msg] }

/-- Effect of `close(fd)`. -/
def sys_close (st : State) (fd : Int) : State :=
  { st with trace := st.trace ++ [Event.close fd] }

/-- Assignment `clients[i].active = v`. -/
def set_active (st : State) (i : Fin MAX_CLIENTS) (v : Int) : State :=
  { st with clients := Function.update st.clients i { st.clients i with active := v } }

/-- Assignment of a new C string to `clients[i].name`. -/
def set_name (st : State) (i : Fin MAX_CLIENTS) (s : CStr) : State :=
  { st with clients := Function.update st.clients i { st.clients i with name := s } }

/-! ## Registry operations -/

/-- One iteration of the loop of `broadcast_message` (lines 310-315). -/
def broadcast_step (message : CStr) (sender_idx : Int) (env : Env)
    (st : State) (i : Fin MAX_CLIENTS) : State :=
  if (st.clients i).active ≠ 0 ∧ (i.val : Int) ≠ sender_idx then
    let st1 := sys_send st (st.clients i).sockfd message
    if env.send_fails i then set_active st1 i 0 else st1
  else st

/-- Embedding of `broadcast_message` (lines 307-318). -/
def broadcast_message (st : State) (message : CStr) (sender_idx : Int) (env : Env) : State :=
  (List.finRange MAX_CLIENTS).foldl (broadcast_step message sender_idx env) st

/-- Scan of `send_private_message` (lines 325-333): the slot at which the loop
breaks, `none` when it runs to the end with `found == 0`. -/
def find_target (st : State) (target_name : CStr) : Option (Fin MAX_CLIENTS) :=
  (List.finRange MAX_CLIENTS).find?
    (fun i => decide ((st.clients i).active ≠ 0 ∧ strcmp (st.clients i).name target_name = 0))

/-- Embedding of `send_private_message` (lines 321-343). -/
def send_private_message (st : State) (message target_name : CStr)
    (sender_idx : Fin MAX_CLIENTS) (env : Env) : State :=
  match find_target st target_name with
  | some i =>
    let st1 := sys_send st (st.clients i).sockfd message
    if env.send_fails i then set_active st1 i 0 else st1
  | none =>
    let error_msg := snprintf 128
      (utf8 "[系统] 用户 '" ++ target_name ++ utf8 "' 不在线或不存在\n")
    sys_send st (st.clients sender_idx).sockfd error_msg

/-- Embedding of `remove_client` (lines 346-355). -/
def remove_client (st : State) (idx : Fin MAX_CLIENTS) : State :=
  if (st.clients idx).active ≠ 0 then
    let st1 := sys_close st (st.clients idx).sockfd
    let cleared : ClientInfo := { st1.clients idx with sockfd := -1, active := 0, name := [] }
    { st1 with clients := Function.update st1.clients idx cleared }
  else st

/-- Embedding of `get_client_count` (lines 358-368); the counter stays within 0..10. -/
def get_client_count (st : State) : Nat :=
  (List.finRange MAX_CLIENTS).foldl
    (fun count i => if (st.clients i).active ≠ 0 then count + 1 else count) 0

/-- Embedding of `signal_handler` (lines 371-387). -/
def signal_handler (st : State) : State :=
  (List.finRange MAX_CLIENTS).foldl
    (fun st i =>
      if (st.clients i).active ≠ 0 then
        let st1 := sys_send st (st.clients i).sockfd (utf8 "[系统] 服务器关闭\n")
        let st2 := sys_close st1 (st.clients i).sockfd
        set_active st2 i 0
      else st)
    { st with server_running := 0 }

/-! ## Listener -/

/-- Slot search of `main` (lines 114-120): first slot with `active == 0`. -/
def find_free_slot (st : State) : Option (Fin MAX_CLIENTS) :=
  (List.finRange MAX_CLIENTS).find? (fun i => decide ((st.clients i).active = 0))

/-- Registration part of the accept loop of `main` (lines 112-137): the state
after it and the slot assigned, `none` when the connection was rejected. -/
def main_register (st : State) (client_fd : Int) (client_addr : sockaddr_in) :
    State × Option (Fin MAX_CLIENTS) :=
  match find_free_slot st with
  | none =>
    let st1 := sys_send st client_fd (utf8 "服务器已满，请稍后再试。\n")
    (sys_close st1 client_fd, none)
  | some idx =>
    let added : ClientInfo :=
      { sockfd := client_fd, addr := client_addr, active := 1,
        name := snprintf 32 (utf8 "用户" ++ fmt_d (idx.val + 1)) }
    ({ st with clients := Function.update st.clients idx added }, some idx)

/-- One pass through the accept loop of `main` (lines 104-153) for the result
`client_fd` of `accept`; `thread_ok` tells whether `pthread_create` succeeds. -/
def main_iteration (st : State) (client_fd : Int) (client_addr : sockaddr_in)
    (thread_ok : Bool) : State :=
  if client_fd < 0 then st
  else
    match main_register st client_fd client_addr with
    | (st1, none) => st1
    | (st1, some idx) =>
      if thread_ok then { st1 with trace := st1.trace ++ [Event.spawn idx] }
      else remove_client st1 idx

/-! ## Connection handler -/

/-- The welcome text of `handle_client` (lines 172-180). -/
def welcome_text (name : CStr) : CStr :=
  utf8 "欢迎来到聊天室！你的昵称是: " ++ name ++ utf8 "\n"
    ++ utf8 "命令列表:\n"
    ++ utf8 "  /quit          - 退出聊天室\n"
    ++ utf8 "  /name <昵称>   - 修改昵称\n"
    ++ utf8 "  /list          - 查看在线用户\n"
    ++ utf8 "  /msg <用户> <消息> - 私聊指定用户\n"
    ++ utf8 "直接输入消息则广播给所有人\n"

/-- Start of `handle_client` (lines 171-186): welcome block, then join notice. -/
def handle_client_enter (st : State) (idx : Fin MAX_CLIENTS) (env : Env) : State :=
  let buffer := snprintf BUFFER_SIZE (welcome_text (st.clients idx).name)
  let st1 := sys_send st (st.clients idx).sockfd buffer
  let message := snprintf (BUFFER_SIZE + 64)
    (utf8 "[系统] " ++ (st1.clients idx).name ++ utf8 " 加入了聊天室\n")
  broadcast_message st1 message idx env

/-- The roster built by the `/list` branch (lines 223-232). -/
def list_message (st : State) (idx : Fin MAX_CLIENTS) : CStr :=
  (List.finRange MAX_CLIENTS).foldl
    (fun list_msg i =>
      if (st.clients i).active ≠ 0 then
        let user_info := snprintf 64
          (utf8 "  - " ++ (st.clients i).name ++ (if i = idx then utf8 " (你)" else [])
            ++ utf8 "\n")
        strncat list_msg user_info (BUFFER_SIZE - strlen list_msg - 1)
      else list_msg)
    (utf8 "[在线用户列表]\n")

/-- Command dispatch of `handle_client` (lines 205-287) on the stripped,
non-empty line `buffer` received by the handler of slot `idx`. -/
def handle_line (st : State) (idx : Fin MAX_CLIENTS) (buffer : CStr) (env : Env) :
    State × LoopCtl :=
  if strncmp buffer (utf8 "/quit") 5 = 0 then
    (st, LoopCtl.stop)
  else if strncmp buffer (utf8 "/name ") 6 = 0 then
    -- `strncpy(old_name, name, 31)` leaves `old_name[31]` unwritten
    let old_name :=
      if strlen (st.clients idx).name < 31 then (st.clients idx).name
      else (st.clients idx).name.take 31 ++ env.stack
    let st1 := set_name st idx ((buffer.drop 6).take 31)
    let message := snprintf (BUFFER_SIZE + 64)
      (utf8 "[系统] " ++ old_name ++ utf8 " 改名为 " ++ (st1.clients idx).name ++ utf8 "\n")
    (broadcast_message st1 message (-1) env, LoopCtl.next)
  else if strncmp buffer (utf8 "/list") 5 = 0 then
    (sys_send st (st.clients idx).sockfd (list_message st idx), LoopCtl.next)
  else if strncmp buffer (utf8 "/msg ") 5 = 0 then
    let cmd_content := buffer.drop 5
    match strchr cmd_content 32 with
    | none =>
      (sys_send st (st.clients idx).sockfd (utf8 "[系统] 用法: /msg <用户名> <消息>\n"),
        LoopCtl.next)
    | some space_pos =>
      let name_len := if space_pos ≥ 32 then 32 - 1 else space_pos
      let target_name := cmd_content.take name_len
      let private_msg := cmd_content.drop (space_pos + 1)
      if strlen private_msg = 0 then
        (sys_send st (st.clients idx).sockfd (utf8 "[系统] 消息内容不能为空\n"), LoopCtl.next)
      else
        let message := snprintf (BUFFER_SIZE + 64)
          (utf8 "[私聊][" ++ (st.clients idx).name ++ utf8 " -> 你]: " ++ private_msg
            ++ utf8 "\n")
        let st1 := send_private_message st message target_name idx env
        let message2 := snprintf (BUFFER_SIZE + 64)
          (utf8 "[私聊][你 -> " ++ target_name ++ utf8 "]: " ++ private_msg ++ utf8 "\n")
        (sys_send st1 (st1.clients idx).sockfd message2, LoopCtl.next)
  else if strncmp buffer (utf8 "/msg") 4 = 0 then
    (sys_send st (st.clients idx).sockfd
        (utf8 "[系统] 私聊格式错误！正确用法: /msg 用户名 消息内容\n"
          ++ utf8 "[系统] 注意: /msg 后面必须有空格\n"
          ++ utf8 "[系统] 示例: /msg 用户2 你好\n"),
      LoopCtl.next)
  else
    let message := snprintf (BUFFER_SIZE + 64)
      (utf8 "[" ++ (st.clients idx).name ++ utf8 "]: " ++ buffer ++ utf8 "\n")
    (broadcast_message st message idx env, LoopCtl.next)

/-- Contents of `buffer` as a C string after `memset`, `recv` of at most
`BUFFER_SIZE - 1` bytes and the cut at the first CR or LF (lines 190-199). -/
def strip_line (bytes : List Nat) : CStr :=
  let buffer := (bytes.take (BUFFER_SIZE - 1)).takeWhile (fun c => c ≠ 0)
  buffer.take (strcspn buffer [13, 10])

/-- One pass through the receive loop of `handle_client` (lines 189-288), taken
as one step at the moment the result of `recv` is consumed: the loop condition
is evaluated at that moment, whereas the C code evaluates it before the thread
blocks in `recv` and still dispatches a line that arrives after the slot was
marked inactive in between. -/
def handle_recv (st : State) (idx : Fin MAX_CLIENTS) (r : RecvResult) (env : Env) :
    State × LoopCtl :=
  if st.server_running = 0 ∨ (st.clients idx).active = 0 then (st, LoopCtl.stop)
  else
    match r with
    | RecvResult.error => (st, LoopCtl.stop)
    | RecvResult.data bytes =>
      if bytes.length = 0 then (st, LoopCtl.stop)
      else if strlen (strip_line bytes) = 0 then (st, LoopCtl.next)
      else handle_line st idx (strip_line bytes) env

/-- End of `handle_client` (lines 290-301): removal, then departure notice. -/
def handle_client_exit (st : State) (idx : Fin MAX_CLIENTS) (env : Env) : State :=
  let name_copy := (st.clients idx).name.take 31
  let st1 := remove_client st idx
  let message := snprintf (BUFFER_SIZE + 64)
    (utf8 "[系统] " ++ name_copy ++ utf8 " 离开了聊天室\n")
  broadcast_message st1 message (-1) env

/-! ## Sequences of server operations -/

/-- Operations whose interleaving makes up a run of the server. -/
inductive Op where
  | connect (client_fd : Int) (client_addr : sockaddr_in) (thread_ok : Bool)
  | enter (idx : Fin MAX_CLIENTS) (env : Env)
  | recv (idx : Fin MAX_CLIENTS) (r : RecvResult) (env : Env)
  | broadcast (message : CStr) (sender_idx : Int) (env : Env)
  | remove (idx : Fin MAX_CLIENTS)
  | shutdown

/-- Effect of one operation; a receive pass that leaves the loop runs the end of
the handler. -/
def Op.apply (st : State) : Op → State
  | Op.connect client_fd client_addr thread_ok => main_iteration st client_fd client_addr thread_ok
  | Op.enter idx env => handle_client_enter st idx env
  | Op.recv idx r env =>
    match handle_recv st idx r env with
    | (st1, LoopCtl.next) => st1
    | (st1, LoopCtl.stop) => handle_client_exit st1 idx env
  | Op.broadcast message sender_idx env => broadcast_message st message sender_idx env
  | Op.remove idx => remove_client st idx
  | Op.shutdown => signal_handler st

/-- State after a sequence of operations. -/
def run (st : State) (ops : List Op) : State := ops.foldl Op.apply st

/-! ## Notions used in the statements -/

/-- Slots with a nonzero `active` field. -/
def active_slots (st : State) : Finset (Fin MAX_CLIENTS) :=
  Finset.univ.filter (fun i => (st.clients i).active ≠ 0)

/-- Slots that a broadcast excluding index `x` addresses, in scan order: the
active slots other than `x`. -/
def recipients (st : State) (x : Int) : List (Fin MAX_CLIENTS) :=
  (List.finRange MAX_CLIENTS).filter
    (fun i => decide ((st.clients i).active ≠ 0 ∧ (i.val : Int) ≠ x))

/-- Environment in which no `send` fails. -/
def env_ok : Env := { send_fails := fun _ => false, stack := [] }

/-- Environment in which every checked `send` fails. -/
def env_fail : Env := { send_fails := fun _ => true, stack := [] }

/-- Three sessions 用户1, 用户2, 用户3 on sockets 4, 5, 6, nothing traced yet. -/
def demo_state : State :=
  { run init_state [Op.connect 4 ⟨1, 1⟩ true, Op.connect 5 ⟨1, 2⟩ true, Op.connect 6 ⟨1, 3⟩ true]
    with trace := [] }

/-- A full table: ten sessions on sockets 4..13, nothing traced yet. -/
def full_state : State :=
  { run init_state ((List.range 10).map (fun (k : Nat) => Op.connect (4 + k) ⟨1, k⟩ true))
    with trace := [] }

/-! ## Lines and replies of the `/msg` command -/

/-- The line `/msg B T`. -/
def msg_line (B T : CStr) : CStr := utf8 "/msg " ++ B ++ utf8 " " ++ T

/-- Private message as the target sees it, sent by the session named `A`. -/
def private_text (A T : CStr) : CStr := utf8 "[私聊][" ++ A ++ utf8 " -> 你]: " ++ T ++ utf8 "\n"

/-- Confirmation echoed to the sender of a private message for `B`. -/
def confirm_text (B T : CStr) : CStr := utf8 "[私聊][你 -> " ++ B ++ utf8 "]: " ++ T ++ utf8 "\n"

/-- Reply for a private-message target that was not found. -/
def not_found_text (N : CStr) : CStr := utf8 "[系统] 用户 '" ++ N ++ utf8 "' 不在线或不存在\n"

/-- The three-line reply to a `/msg` that is not followed by a space. -/
def no_space_usage : CStr :=
  utf8 "[系统] 私聊格式错误！正确用法: /msg 用户名 消息内容\n"
    ++ utf8 "[系统] 注意: /msg 后面必须有空格\n"
    ++ utf8 "[系统] 示例: /msg 用户2 你好\n"

/-- Table after two sessions took the name Bob, slot 0 first and slot 1 last. -/
def bob_state : State :=
  { run demo_state
      [Op.recv 0 (RecvResult.data (utf8 "/name Bob\n")) env_ok,
       Op.recv 1 (RecvResult.data (utf8 "/name Bob\n")) env_ok]
    with trace := [] }

/-! ## Rename and roster -/

/-- Environment in which exactly the checked sends to slot `i` fail. -/
def env_fail_at (i : Fin MAX_CLIENTS) : Env :=
  { send_fails := fun j => decide (j = i), stack := [] }

/-- The line `/name N`. -/
def name_line (N : CStr) : CStr := utf8 "/name " ++ N

/-- Rename notice for a session named `O` that takes the name `N`. -/
def rename_text (O N : CStr) : CStr := utf8 "[系统] " ++ O ++ utf8 " 改名为 " ++ N ++ utf8 "\n"

/-- One roster line: slot `i` as listed for the caller `idx`. -/
def roster_entry (st : State) (idx i : Fin MAX_CLIENTS) : CStr :=
  utf8 "  - " ++ (st.clients i).name ++ (if i = idx then utf8 " (你)" else []) ++ utf8 "\n"

/-- The roster for caller `idx`: the header, then one line per active slot in
ascending slot order. -/
def roster (st : State) (idx : Fin MAX_CLIENTS) : CStr :=
  utf8 "[在线用户列表]\n" ++
    ((List.finRange MAX_CLIENTS).filter (fun i => decide ((st.clients i).active ≠ 0))).flatMap
      (roster_entry st idx)

/-- State after the handler of slot `s` processed the line `/name N`. -/
def after_rename (st : State) (s : Fin MAX_CLIENTS) (N : CStr) (env : Env) : State :=
  (handle_line st s (name_line N) env).1

/-! ## Command classification and notices -/

/-- Does `line` begin with the bytes `pre`? -/
def begins_with (line pre : CStr) : Bool := line.take pre.length == pre

/-- The commands of the protocol, `chat` standing for an ordinary chat line. -/
inductive Command where
  | quit
  | rename
  | roster
  | private_msg
  | usage
  | chat
deriving DecidableEq, Repr

/-- Classification of a stripped line by literal prefix, first match in the
order `/quit`, `/name `, `/list`, `/msg `, `/msg`, anything else. -/
def classify (line : CStr) : Command :=
  if begins_with line (utf8 "/quit") then Command.quit
  else if begins_with line (utf8 "/name ") then Command.rename
  else if begins_with line (utf8 "/list") then Command.roster
  else if begins_with line (utf8 "/msg ") then Command.private_msg
  else if begins_with line (utf8 "/msg") then Command.usage
  else Command.chat

/-- Public chat line `L` of the session named `A`. -/
def chat_text (A L : CStr) : CStr := utf8 "[" ++ A ++ utf8 "]: " ++ L ++ utf8 "\n"

/-- Join notice for the session named `A`. -/
def join_text (A : CStr) : CStr := utf8 "[系统] " ++ A ++ utf8 " 加入了聊天室\n"

/-- Departure notice for the session named `A`. -/
def leave_text (A : CStr) : CStr := utf8 "[系统] " ++ A ++ utf8 " 离开了聊天室\n"

/-! ## End of a session -/

/-- Does the handler leave its receive loop on this outcome of `recv`: an
error, zero bytes, or a line beginning with `/quit`? -/
def ends_loop (r : RecvResult) : Bool :=
  match r with
  | RecvResult.error => true
  | RecvResult.data bytes => bytes.length == 0 || begins_with (strip_line bytes) (utf8 "/quit")

/-! ## Runs and whole-table operations -/

/-- Run in which the connection of 用户2 is never closed: two sessions register
on sockets 4 and 5, the chat line of 用户1 cannot be sent to 用户2, whose slot is
thereby marked inactive; the handler of 用户2 then finds the loop condition
false and runs its closing step. -/
def leak_state : State :=
  run init_state
    [Op.connect 4 ⟨1, 1⟩ true, Op.connect 5 ⟨1, 2⟩ true,
     Op.recv 0 (RecvResult.data (utf8 "hello\n")) (env_fail_at 1),
     Op.recv 1 RecvResult.error env_ok]

/-- Removal of every slot in turn: `remove_client` applied to slots 0..9. -/
def remove_all (st : State) : State :=
  (List.finRange MAX_CLIENTS).foldl remove_client st

/-! ## Actions of the commands -/

/-- Body of the `/name ` branch (lines 209-220). -/
def do_rename (st : State) (idx : Fin MAX_CLIENTS) (buffer : CStr) (env : Env) :
    State × LoopCtl :=
  let old_name :=
    if strlen (st.clients idx).name < 31 then (st.clients idx).name
    else (st.clients idx).name.take 31 ++ env.stack
  let st1 := set_name st idx ((buffer.drop 6).take 31)
  let message := snprintf (BUFFER_SIZE + 64)
    (utf8 "[系统] " ++ old_name ++ utf8 " 改名为 " ++ (st1.clients idx).name ++ utf8 "\n")
  (broadcast_message st1 message (-1) env, LoopCtl.next)

/-- Body of the `/list` branch (lines 222-234). -/
def do_list (st : State) (idx : Fin MAX_CLIENTS) : State × LoopCtl :=
  (sys_send st (st.clients idx).sockfd (list_message st idx), LoopCtl.next)

/-- Body of the `/msg ` branch (lines 236-273). -/
def do_private (st : State) (idx : Fin MAX_CLIENTS) (buffer : CStr) (env : Env) :
    State × LoopCtl :=
  let cmd_content := buffer.drop 5
  match strchr cmd_content 32 with
  | none =>
    (sys_send st (st.clients idx).sockfd (utf8 "[系统] 用法: /msg <用户名> <消息>\n"),
      LoopCtl.next)
  | some space_pos =>
    let name_len := if space_pos ≥ 32 then 32 - 1 else space_pos
    let target_name := cmd_content.take name_len
    let private_msg := cmd_content.drop (space_pos + 1)
    if strlen private_msg = 0 then
      (sys_send st (st.clients idx).sockfd (utf8 "[系统] 消息内容不能为空\n"), LoopCtl.next)
    else
      let message := snprintf (BUFFER_SIZE + 64)
        (utf8 "[私聊][" ++ (st.clients idx).name ++ utf8 " -> 你]: " ++ private_msg
          ++ utf8 "\n")
      let st1 := send_private_message st message target_name idx env
      let message2 := snprintf (BUFFER_SIZE + 64)
        (utf8 "[私聊][你 -> " ++ target_name ++ utf8 "]: " ++ private_msg ++ utf8 "\n")
      (sys_send st1 (st1.clients idx).sockfd message2, LoopCtl.next)

/-- Body of the `/msg` branch without a space (lines 275-280). -/
def do_usage (st : State) (idx : Fin MAX_CLIENTS) : State × LoopCtl :=
  (sys_send st (st.clients idx).sockfd no_space_usage, LoopCtl.next)

/-- Body of the last branch (lines 282-286): public chat line. -/
def do_chat (st : State) (idx : Fin MAX_CLIENTS) (buffer : CStr) (env : Env) :
    State × LoopCtl :=
  let message := snprintf (BUFFER_SIZE + 64)
    (utf8 "[" ++ (st.clients idx).name ++ utf8 "]: " ++ buffer ++ utf8 "\n")
  (broadcast_message st message idx env, LoopCtl.next)

/-- The action of each command on the line `buffer` of slot `idx`. -/
def Command.exec (cmd : Command) (st : State) (idx : Fin MAX_CLIENTS) (buffer : CStr)
    (env : Env) : State × LoopCtl :=
  match cmd with
  | Command.quit => (st, LoopCtl.stop)
  | Command.rename => do_rename st idx buffer env
  | Command.roster => do_list st idx
  | Command.private_msg => do_private st idx buffer env
  | Command.usage => do_usage st idx
  | Command.chat => do_chat st idx buffer env

/-! ## Name length -/

/-- Environment in which no send fails and the bytes found from `old_name[31]`
on are `bytes`. -/
def env_stack (bytes : CStr) : Env := { send_fails := fun _ => false, stack := bytes }

/-- Three sessions, the third of which took a name of 31 letters `a`; nothing
traced yet. -/
def long_name_state : State :=
  { run demo_state
      [Op.recv 2 (RecvResult.data (utf8 "/name " ++ List.replicate 31 97 ++ utf8 "\n")) env_ok]
    with trace := [] }

/-- Every name in the table has at most 31 bytes, as `char name[32]` demands. -/
def names_fit (st : State) : Prop := ∀ i, strlen (st.clients i).name ≤ 31

end ChatServer

/-! # TIME protocol conversion (`src/expr4/common.h`)

The two conversion helpers mix `time_t`, `unsigned long` and `uint32_t`. The
width `w` of `long`, `unsigned long` and `time_t` is a parameter (64 on the
LP64 platforms these programs are written for); integers are mathematical
integers with every conversion written out.
-/

namespace TimeProtocol

/-- Mirrors `#define TIME_OFFSET 2208988800UL`: seconds from 1900 to 1970. -/
def TIME_OFFSET : Int := 2208988800

/-- Value of an integer converted to an unsigned type of `w` bits. -/
def to_unsigned (w : Nat) (x : Int) : Int := x % 2 ^ w

/-- Value of an integer converted to a signed two's complement type of `w` bits. -/
def to_signed (w : Nat) (x : Int) : Int := (x + 2 ^ (w - 1)) % 2 ^ w - 2 ^ (w - 1)

/-- Embedding of `unix_to_time_protocol` (common.h lines 49-52) for a platform
whose `long`, `unsigned long` and `time_t` have `w` bits: the sum is computed
in `unsigned long`, then converted to `uint32_t`. -/
def unix_to_time_protocol (w : Nat) (unix_time : Int) : Int :=
  to_unsigned 32 (to_unsigned w (to_unsigned w unix_time + TIME_OFFSET))

/-- Embedding of `time_protocol_to_unix` (common.h lines 59-62): the difference
is computed in `unsigned long`, then converted to `time_t`. -/
def time_protocol_to_unix (w : Nat) (time_protocol : Int) : Int :=
  to_signed w (to_unsigned w (time_protocol - TIME_OFFSET))

end TimeProtocol

/-! # Properties -/

namespace ChatServer

/-! ## Scans over the slot table -/

theorem count_fold (p : Fin MAX_CLIENTS → Prop) [DecidablePred p]
    (l : List (Fin MAX_CLIENTS)) (k : Nat) :
    l.foldl (fun count i => if p i then count + 1 else count) k
      = k + (l.filter (fun i => decide (p i))).length := by
  induction l generalizing k with
  | nil => simp
  | cons a l ih =>
    simp only [List.foldl_cons, ih, List.filter_cons]
    by_cases h : p a
    · simp [h]; omega
    · simp [h]

theorem get_client_count_eq_card (st : State) :
    get_client_count st = (active_slots st).card := by
  unfold get_client_count active_slots
  rw [count_fold (fun i => (st.clients i).active ≠ 0)]
  simp [Fin.univ_def, Finset.filter, Finset.card]

theorem get_client_count_le (st : State) : get_client_count st ≤ MAX_CLIENTS := by
  unfold get_client_count
  rw [count_fold (fun i => (st.clients i).active ≠ 0)]
  have := List.length_filter_le (fun i => decide ((st.clients i).active ≠ 0))
    (List.finRange MAX_CLIENTS)
  simpa using this

theorem find_sorted_some {n : Nat} (p : Fin n → Bool) (l : List (Fin n))
    (hl : l.Pairwise (fun a b => a < b)) (i : Fin n) :
    l.find? p = some i ↔ i ∈ l ∧ p i = true ∧ ∀ j ∈ l, j < i → p j = false := by
  induction l with
  | nil => simp
  | cons a l ih =>
    rw [List.pairwise_cons] at hl
    obtain ⟨ha, hl⟩ := hl
    rw [List.find?_cons]
    cases hpa : p a with
    | true =>
      simp only [Option.some.injEq]
      constructor
      · rintro rfl
        refine ⟨List.mem_cons_self _ _, hpa, ?_⟩
        intro j hj hlt
        rcases List.mem_cons.1 hj with rfl | hj
        · exact absurd hlt (lt_irrefl _)
        · exact absurd hlt (lt_asymm (ha j hj))
      · rintro ⟨hi, _, hmin⟩
        rcases List.mem_cons.1 hi with rfl | hi
        · rfl
        · have := hmin a (List.mem_cons_self _ _) (ha i hi)
          rw [hpa] at this
          exact absurd this (by simp)
    | false =>
      simp only
      rw [ih hl]
      constructor
      · rintro ⟨hi, hpi, hmin⟩
        refine ⟨List.mem_cons_of_mem _ hi, hpi, ?_⟩
        intro j hj hlt
        rcases List.mem_cons.1 hj with rfl | hj
        · exact hpa
        · exact hmin j hj hlt
      · rintro ⟨hi, hpi, hmin⟩
        rcases List.mem_cons.1 hi with rfl | hi
        · rw [hpa] at hpi
          exact absurd hpi (by simp)
        · exact ⟨hi, hpi, fun j hj hlt => hmin j (List.mem_cons_of_mem _ hj) hlt⟩

theorem find_finRange_some {n : Nat} (p : Fin n → Bool) (i : Fin n) :
    (List.finRange n).find? p = some i ↔ p i = true ∧ ∀ j, j < i → p j = false := by
  rw [find_sorted_some p _ (List.pairwise_lt_finRange n)]
  simp [List.mem_finRange]

theorem find_finRange_none {n : Nat} (p : Fin n → Bool) :
    (List.finRange n).find? p = none ↔ ∀ i, p i = false := by
  rw [List.find?_eq_none]
  simp [List.mem_finRange]

/-- Among the indices satisfying `p` there is a lowest one. -/
theorem exists_lowest {n : Nat} (p : Fin n → Prop) [DecidablePred p] (h : ∃ i, p i) :
    ∃ i, p i ∧ ∀ j, j < i → ¬ p j := by
  cases hf : (List.finRange n).find? (fun i => decide (p i)) with
  | none =>
    obtain ⟨i, hi⟩ := h
    have := (find_finRange_none (fun i => decide (p i))).1 hf i
    simp [hi] at this
  | some i =>
    obtain ⟨h1, h2⟩ := (find_finRange_some (fun i => decide (p i)) i).1 hf
    exact ⟨i, by simpa using h1, fun j hj => by simpa using h2 j hj⟩

/-! ## Broadcast -/

theorem broadcast_step_spec (m : CStr) (x : Int) (env : Env) (st : State) (a : Fin MAX_CLIENTS) :
    (broadcast_step m x env st a).server_running = st.server_running ∧
    (broadcast_step m x env st a).trace = st.trace ++
      (if (st.clients a).active ≠ 0 ∧ (a.val : Int) ≠ x then [Event.send (st.clients a).sockfd m]
        else []) ∧
    (∀ j, j ≠ a → (broadcast_step m x env st a).clients j = st.clients j) ∧
    (broadcast_step m x env st a).clients a =
      if (st.clients a).active ≠ 0 ∧ (a.val : Int) ≠ x ∧ env.send_fails a = true
      then { st.clients a with active := 0 } else st.clients a := by
  unfold broadcast_step
  by_cases hc : (st.clients a).active ≠ 0 ∧ (a.val : Int) ≠ x
  · rw [if_pos hc, if_pos hc]
    by_cases hf : env.send_fails a = true
    · rw [if_pos hf, if_pos ⟨hc.1, hc.2, hf⟩]
      refine ⟨rfl, rfl, ?_, ?_⟩
      · intro j hj
        simp [set_active, sys_send, Function.update_noteq hj]
      · simp [set_active, sys_send]
    · rw [if_neg hf, if_neg (fun h => hf h.2.2)]
      exact ⟨rfl, rfl, fun _ _ => rfl, rfl⟩
  · rw [if_neg hc, if_neg hc, if_neg (fun h => hc ⟨h.1, h.2.1⟩)]
    exact ⟨rfl, by simp, fun _ _ => rfl, rfl⟩

theorem broadcast_fold (m : CStr) (x : Int) (env : Env) (l : List (Fin MAX_CLIENTS))
    (hl : l.Nodup) (st : State) :
    (l.foldl (broadcast_step m x env) st).server_running = st.server_running ∧
    (l.foldl (broadcast_step m x env) st).trace = st.trace ++
      (l.filter (fun i => decide ((st.clients i).active ≠ 0 ∧ (i.val : Int) ≠ x))).map
        (fun i => Event.send (st.clients i).sockfd m) ∧
    ∀ j, (l.foldl (broadcast_step m x env) st).clients j =
      if j ∈ l ∧ (st.clients j).active ≠ 0 ∧ (j.val : Int) ≠ x ∧ env.send_fails j = true
      then { st.clients j with active := 0 } else st.clients j := by
  induction l generalizing st with
  | nil => simp
  | cons a l ih =>
    rw [List.nodup_cons] at hl
    obtain ⟨hal, hl⟩ := hl
    obtain ⟨h1, h2, h3, h4⟩ := broadcast_step_spec m x env st a
    obtain ⟨i1, i2, i3⟩ := ih hl (broadcast_step m x env st a)
    have hne : ∀ j ∈ l, j ≠ a := fun j hj e => hal (e ▸ hj)
    simp only [List.foldl_cons]
    refine ⟨i1.trans h1, ?_, ?_⟩
    · rw [i2, h2, List.filter_cons, List.append_assoc]
      congr 1
      have e1 : l.filter (fun i => decide (((broadcast_step m x env st a).clients i).active ≠ 0 ∧ (i.val : Int) ≠ x))
          = l.filter (fun i => decide ((st.clients i).active ≠ 0 ∧ (i.val : Int) ≠ x)) :=
        List.filter_congr (fun j hj => by rw [h3 j (hne j hj)])
      have e2 : (l.filter (fun i => decide ((st.clients i).active ≠ 0 ∧ (i.val : Int) ≠ x))).map
            (fun i => Event.send ((broadcast_step m x env st a).clients i).sockfd m)
          = (l.filter (fun i => decide ((st.clients i).active ≠ 0 ∧ (i.val : Int) ≠ x))).map
            (fun i => Event.send (st.clients i).sockfd m) :=
        List.map_congr_left (fun j hj => by rw [h3 j (hne j (List.mem_of_mem_filter hj))])
      rw [e1, e2]
      by_cases hc : (st.clients a).active ≠ 0 ∧ (a.val : Int) ≠ x
      · simp [hc]
      · simp [hc]
    · intro j
      rw [i3 j]
      by_cases hja : j = a
      · subst hja
        simp only [hal, false_and, if_false, h4, List.mem_cons_self, true_and]
      · rw [h3 j hja]
        simp [hja]

theorem broadcast_message_spec (st : State) (m : CStr) (x : Int) (env : Env) :
    (broadcast_message st m x env).server_running = st.server_running ∧
    (broadcast_message st m x env).trace = st.trace ++
      (recipients st x).map (fun i => Event.send (st.clients i).sockfd m) ∧
    ∀ j, (broadcast_message st m x env).clients j =
      if (st.clients j).active ≠ 0 ∧ (j.val : Int) ≠ x ∧ env.send_fails j = true
      then { st.clients j with active := 0 } else st.clients j := by
  obtain ⟨h1, h2, h3⟩ :=
    broadcast_fold m x env (List.finRange MAX_CLIENTS) (List.nodup_finRange _) st
  refine ⟨h1, h2, fun j => ?_⟩
  rw [broadcast_message, h3 j]
  simp [List.mem_finRange]

theorem mem_recipients (st : State) (x : Int) (i : Fin MAX_CLIENTS) :
    i ∈ recipients st x ↔ (st.clients i).active ≠ 0 ∧ (i.val : Int) ≠ x := by
  simp [recipients, List.mem_finRange]

theorem nodup_recipients (st : State) (x : Int) : (recipients st x).Nodup :=
  (List.nodup_finRange _).filter _

/-- C1. Capacity invariant: after every finite sequence of server operations
started from the empty table, the value returned by `get_client_count` is the
number of slots marked active and is at most `MAX_CLIENTS`. -/
theorem capacity_invariant (ops : List Op) :
    get_client_count (run init_state ops) = (active_slots (run init_state ops)).card ∧
    get_client_count (run init_state ops) ≤ MAX_CLIENTS ∧
    MAX_CLIENTS = 10 :=
  ⟨get_client_count_eq_card _, get_client_count_le _, rfl⟩

theorem get_client_count_register (st : State) (i : Fin MAX_CLIENTS) (c : ClientInfo)
    (h0 : (st.clients i).active = 0) (h1 : c.active ≠ 0) :
    get_client_count { st with clients := Function.update st.clients i c }
      = get_client_count st + 1 := by
  rw [get_client_count_eq_card, get_client_count_eq_card]
  have : active_slots { st with clients := Function.update st.clients i c }
      = insert i (active_slots st) := by
    ext j
    by_cases hj : j = i
    · subst hj; simp [active_slots, h1]
    · simp [active_slots, hj, Function.update_noteq hj]
  rw [this, Finset.card_insert_of_not_mem]
  simp [active_slots, h0]

theorem default_name_fits : ∀ i : Fin MAX_CLIENTS,
    snprintf 32 (utf8 "用户" ++ fmt_d (i.val + 1)) = utf8 "用户" ++ fmt_d (i.val + 1) := by
  decide

theorem find_free_slot_some (st : State) (i : Fin MAX_CLIENTS) :
    find_free_slot st = some i ↔
      (st.clients i).active = 0 ∧ ∀ j, j < i → (st.clients j).active ≠ 0 := by
  unfold find_free_slot
  rw [find_finRange_some]
  simp

theorem find_free_slot_none (st : State) :
    find_free_slot st = none ↔ ∀ i, (st.clients i).active ≠ 0 := by
  unfold find_free_slot
  rw [find_finRange_none]
  simp

/-- C2. Registration on accept (lines 112-137 of `main`). If some slot is
inactive there is a lowest inactive slot `i`; the connection is stored there with
`active = 1` and name `用户<i+1>`, every other slot is unchanged, nothing is sent
and the active count grows by one; the accept pass then spawns the handler of
slot `i` on that table. If every slot is active the table is
unchanged, the only system calls are the send of the full-server notice to the
new connection and its close, and the accept pass ends there: no handler is
spawned. -/
theorem main_register_spec (st : State) (client_fd : Int) (client_addr : sockaddr_in)
    (thread_ok : Bool) :
    ((∃ i, (st.clients i).active = 0) →
      ∃ i, (st.clients i).active = 0 ∧ (∀ j, j < i → (st.clients j).active ≠ 0) ∧
        (main_register st client_fd client_addr).2 = some i ∧
        (main_register st client_fd client_addr).1.clients = Function.update st.clients i
          { sockfd := client_fd, addr := client_addr,
            name := utf8 "用户" ++ fmt_d (i.val + 1), active := 1 } ∧
        (main_register st client_fd client_addr).1.trace = st.trace ∧
        get_client_count (main_register st client_fd client_addr).1
          = get_client_count st + 1 ∧
        (0 ≤ client_fd →
          (main_iteration st client_fd client_addr true).clients
            = (main_register st client_fd client_addr).1.clients ∧
          (main_iteration st client_fd client_addr true).trace
            = st.trace ++ [Event.spawn i])) ∧
    ((∀ i, (st.clients i).active ≠ 0) →
      (main_register st client_fd client_addr).2 = none ∧
      (main_register st client_fd client_addr).1.clients = st.clients ∧
      (main_register st client_fd client_addr).1.trace = st.trace ++
        [Event.send client_fd (utf8 "服务器已满，请稍后再试。\n"), Event.close client_fd] ∧
      (0 ≤ client_fd → main_iteration st client_fd client_addr thread_ok
        = (main_register st client_fd client_addr).1)) := by
  constructor
  · intro hex
    obtain ⟨i, hi, hmin⟩ := exists_lowest (fun i => (st.clients i).active = 0) hex
    have hf : find_free_slot st = some i := (find_free_slot_some st i).2 ⟨hi, hmin⟩
    refine ⟨i, hi, hmin, ?_, ?_, ?_, ?_, ?_⟩
    · simp [main_register, hf]
    · simp [main_register, hf, default_name_fits i]
    · simp [main_register, hf]
    · simp only [main_register, hf]
      exact get_client_count_register st i _ hi (by simp)
    · intro hfd
      simp [main_iteration, main_register, hf, not_lt.2 hfd]
  · intro hall
    have hf : find_free_slot st = none := (find_free_slot_none st).2 hall
    refine ⟨?_, ?_, ?_, ?_⟩
    · simp [main_register, hf]
    · simp [main_register, hf, sys_close, sys_send]
    · simp [main_register, hf, sys_close, sys_send]
    · intro hfd
      simp [main_iteration, main_register, hf, not_lt.2 hfd]

/-- C3. Broadcast recipients: when every send succeeds, `broadcast_message`
leaves the table unchanged and performs exactly the sends of `m` to the sockets
of `recipients st x`, a duplicate-free list made of the slots that are active and
different from `x`; with `x = -1` these are all active slots. -/
theorem broadcast_message_recipients (st : State) (m : CStr) (x : Int) (env : Env)
    (hok : ∀ i, env.send_fails i = false) :
    (broadcast_message st m x env).clients = st.clients ∧
    (broadcast_message st m x env).trace = st.trace ++
      (recipients st x).map (fun i => Event.send (st.clients i).sockfd m) ∧
    (recipients st x).Nodup ∧
    (∀ i, i ∈ recipients st x ↔ (st.clients i).active ≠ 0 ∧ (i.val : Int) ≠ x) ∧
    (∀ i, i ∈ recipients st (-1) ↔ (st.clients i).active ≠ 0) := by
  obtain ⟨_, h2, h3⟩ := broadcast_message_spec st m x env
  refine ⟨?_, h2, nodup_recipients st x, mem_recipients st x, ?_⟩
  · funext j
    rw [h3 j]
    simp [hok j]
  · intro i
    rw [mem_recipients]
    constructor
    · exact fun h => h.1
    · intro h
      refine ⟨h, ?_⟩
      have : (0 : Int) ≤ (i.val : Int) := Int.ofNat_nonneg _
      omega

/-- Witness for C3: a chat line of 用户1 goes to 用户2 and 用户3 only. -/
theorem broadcast_message_recipients_witness :
    (broadcast_message demo_state (utf8 "hi") 0 env_ok).clients = demo_state.clients ∧
    (broadcast_message demo_state (utf8 "hi") 0 env_ok).trace
      = [Event.send 5 (utf8 "hi"), Event.send 6 (utf8 "hi")] :=
  ⟨(broadcast_message_recipients demo_state (utf8 "hi") 0 env_ok (fun _ => rfl)).1, by decide⟩

/-- C4. Broadcast failure isolation: whichever sends fail, `broadcast_message`
still performs exactly one send to every active slot other than `x`, in scan
order; afterwards a slot differs from before only if it was addressed and its
send failed, and then only in `active`, which is 0; the slot with index `x` is
untouched; `server_running` is unchanged and nothing is reported back. -/
theorem broadcast_message_failures (st : State) (m : CStr) (x : Int) (env : Env) :
    (broadcast_message st m x env).trace = st.trace ++
      (recipients st x).map (fun i => Event.send (st.clients i).sockfd m) ∧
    (∀ j, (broadcast_message st m x env).clients j =
      if j ∈ recipients st x ∧ env.send_fails j = true
      then { st.clients j with active := 0 } else st.clients j) ∧
    (∀ j, (j.val : Int) = x → (broadcast_message st m x env).clients j = st.clients j) ∧
    (broadcast_message st m x env).server_running = st.server_running := by
  obtain ⟨h1, h2, h3⟩ := broadcast_message_spec st m x env
  refine ⟨h2, ?_, ?_, h1⟩
  · intro j
    rw [h3 j]
    by_cases hc : (st.clients j).active ≠ 0 ∧ (j.val : Int) ≠ x ∧ env.send_fails j = true
    · rw [if_pos hc, if_pos ⟨(mem_recipients st x j).2 ⟨hc.1, hc.2.1⟩, hc.2.2⟩]
    · rw [if_neg hc, if_neg]
      rintro ⟨hm, hf⟩
      obtain ⟨ha, hx⟩ := (mem_recipients st x j).1 hm
      exact hc ⟨ha, hx, hf⟩
  · intro j hj
    rw [h3 j]
    simp [hj]

/-! ## Private messages -/

theorem utf8_quit : utf8 "/quit" = [47, 113, 117, 105, 116] := by decide
theorem utf8_name_sp : utf8 "/name " = [47, 110, 97, 109, 101, 32] := by decide
theorem utf8_list : utf8 "/list" = [47, 108, 105, 115, 116] := by decide
theorem utf8_msg_sp : utf8 "/msg " = [47, 109, 115, 103, 32] := by decide
theorem utf8_msg : utf8 "/msg" = [47, 109, 115, 103] := by decide
theorem utf8_sp : utf8 " " = [32] := by decide

theorem strchr_none (s : CStr) (c : Nat) (h : c ∉ s) : strchr s c = none := by
  induction s with
  | nil => rfl
  | cons b s ih =>
    have hb : b ≠ c := fun e => h (e ▸ List.mem_cons_self _ _)
    have hs : c ∉ s := fun hm => h (List.mem_cons_of_mem _ hm)
    simp [strchr, hb, ih hs]

theorem strchr_append (s t : CStr) (c : Nat) (h : c ∉ s) :
    strchr (s ++ c :: t) c = some s.length := by
  induction s with
  | nil => simp [strchr]
  | cons b s ih =>
    have hb : b ≠ c := fun e => h (e ▸ List.mem_cons_self _ _)
    have hs : c ∉ s := fun hm => h (List.mem_cons_of_mem _ hm)
    simp [strchr, hb, ih hs]

theorem snprintf_fits (size : Nat) (s : CStr) (h : s.length ≤ size - 1) : snprintf size s = s :=
  List.take_of_length_le h

theorem find_target_some (st : State) (N : CStr) (i : Fin MAX_CLIENTS) :
    find_target st N = some i ↔
      ((st.clients i).active ≠ 0 ∧ (st.clients i).name = N) ∧
      ∀ j, j < i → ¬ ((st.clients j).active ≠ 0 ∧ (st.clients j).name = N) := by
  unfold find_target
  rw [find_finRange_some]
  simp [strcmp]

theorem find_target_none (st : State) (N : CStr) :
    find_target st N = none ↔
      ∀ i, ¬ ((st.clients i).active ≠ 0 ∧ (st.clients i).name = N) := by
  unfold find_target
  rw [find_finRange_none]
  simp [strcmp]

/-- The `/msg ` branch of the dispatch (lines 235-273). -/
theorem handle_line_msg (st : State) (idx : Fin MAX_CLIENTS) (rest : CStr) (env : Env) :
    handle_line st idx (utf8 "/msg " ++ rest) env =
      match strchr rest 32 with
      | none =>
        (sys_send st (st.clients idx).sockfd (utf8 "[系统] 用法: /msg <用户名> <消息>\n"),
          LoopCtl.next)
      | some space_pos =>
        if strlen (rest.drop (space_pos + 1)) = 0 then
          (sys_send st (st.clients idx).sockfd (utf8 "[系统] 消息内容不能为空\n"), LoopCtl.next)
        else
          (sys_send
            (send_private_message st
              (snprintf (BUFFER_SIZE + 64)
                (utf8 "[私聊][" ++ (st.clients idx).name ++ utf8 " -> 你]: "
                  ++ rest.drop (space_pos + 1) ++ utf8 "\n"))
              (rest.take (if space_pos ≥ 32 then 32 - 1 else space_pos)) idx env)
            ((send_private_message st
              (snprintf (BUFFER_SIZE + 64)
                (utf8 "[私聊][" ++ (st.clients idx).name ++ utf8 " -> 你]: "
                  ++ rest.drop (space_pos + 1) ++ utf8 "\n"))
              (rest.take (if space_pos ≥ 32 then 32 - 1 else space_pos)) idx env).clients
                idx).sockfd
            (snprintf (BUFFER_SIZE + 64)
              (utf8 "[私聊][你 -> " ++ rest.take (if space_pos ≥ 32 then 32 - 1 else space_pos)
                ++ utf8 "]: " ++ rest.drop (space_pos + 1) ++ utf8 "\n")),
            LoopCtl.next) := by
  unfold handle_line
  rw [utf8_quit, utf8_name_sp, utf8_list, utf8_msg_sp]
  simp only [strncmp, List.cons_append, List.nil_append, List.take_succ_cons, List.take_zero,
    List.drop_succ_cons, List.drop_zero]
  cases strchr rest 32 <;> simp

theorem send_private_message_sockfd (st : State) (m N : CStr) (s : Fin MAX_CLIENTS) (env : Env)
    (j : Fin MAX_CLIENTS) :
    ((send_private_message st m N s env).clients j).sockfd = (st.clients j).sockfd := by
  unfold send_private_message
  cases find_target st N with
  | none => simp [sys_send]
  | some i =>
    by_cases hf : env.send_fails i = true
    · by_cases hj : j = i
      · subst hj; simp [hf, set_active, sys_send]
      · simp [hf, set_active, sys_send, Function.update_noteq hj]
    · simp [hf, sys_send]


theorem msg_line_eq (B T : CStr) : msg_line B T = utf8 "/msg " ++ (B ++ 32 :: T) := by
  simp [msg_line, utf8_sp]

theorem length_msg_line (B T : CStr) : (msg_line B T).length = 6 + B.length + T.length := by
  simp [msg_line, utf8_sp, utf8_msg_sp]; omega

theorem private_text_fits (A T : CStr) (hA : A.length ≤ 31) (hT : T.length ≤ BUFFER_SIZE - 1) :
    snprintf (BUFFER_SIZE + 64)
      (utf8 "[私聊][" ++ A ++ utf8 " -> 你]: " ++ T ++ utf8 "\n") = private_text A T := by
  have h1 : (utf8 "[私聊][").length = 9 := by decide
  have h2 : (utf8 " -> 你]: ").length = 10 := by decide
  have h3 : (utf8 "\n").length = 1 := by decide
  apply snprintf_fits
  simp only [List.length_append, h1, h2, h3]
  simp only [BUFFER_SIZE] at hT ⊢
  omega

theorem confirm_text_fits (B T : CStr) (hB : B.length ≤ 31) (hT : T.length ≤ BUFFER_SIZE - 1) :
    snprintf (BUFFER_SIZE + 64)
      (utf8 "[私聊][你 -> " ++ B ++ utf8 "]: " ++ T ++ utf8 "\n") = confirm_text B T := by
  have h1 : (utf8 "[私聊][你 -> ").length = 16 := by decide
  have h2 : (utf8 "]: ").length = 3 := by decide
  have h3 : (utf8 "\n").length = 1 := by decide
  apply snprintf_fits
  simp only [List.length_append, h1, h2, h3]
  simp only [BUFFER_SIZE] at hT ⊢
  omega

theorem not_found_text_fits (N : CStr) (hN : N.length ≤ 31) :
    snprintf 128 (utf8 "[系统] 用户 '" ++ N ++ utf8 "' 不在线或不存在\n") = not_found_text N := by
  have h1 : (utf8 "[系统] 用户 '").length = 17 := by decide
  have h2 : (utf8 "' 不在线或不存在\n").length = 24 := by decide
  apply snprintf_fits
  simp only [List.length_append, h1, h2]
  omega

/-- What the handler does with a well-formed line `/msg B T`: one call of
`send_private_message`, then the confirmation to the sender. -/
theorem handle_line_msg_line (st : State) (s : Fin MAX_CLIENTS) (B T : CStr) (env : Env)
    (hB : 32 ∉ B) (hBlen : B.length ≤ 31) (hT : T ≠ []) :
    handle_line st s (msg_line B T) env =
      (sys_send
        (send_private_message st
          (snprintf (BUFFER_SIZE + 64)
            (utf8 "[私聊][" ++ (st.clients s).name ++ utf8 " -> 你]: " ++ T ++ utf8 "\n")) B s env)
        (st.clients s).sockfd
        (snprintf (BUFFER_SIZE + 64)
          (utf8 "[私聊][你 -> " ++ B ++ utf8 "]: " ++ T ++ utf8 "\n")),
        LoopCtl.next) := by
  rw [msg_line_eq, handle_line_msg, strchr_append B T 32 hB]
  have hlen : ¬ (B.length ≥ 32) := by omega
  have hT0 : ¬ (strlen T = 0) := by
    intro h; exact hT (List.length_eq_zero.1 h)
  simp only [hlen, if_false, List.take_left, List.drop_left, List.drop_append_of_le_length,
    send_private_message_sockfd]
  have hd : List.drop (B.length + 1) (B ++ 32 :: T) = T := by
    rw [List.drop_append_eq_append_drop]
    simp
  rw [hd, if_neg hT0]


theorem send_private_message_found (st : State) (m N : CStr) (s i : Fin MAX_CLIENTS) (env : Env)
    (h : find_target st N = some i) :
    send_private_message st m N s env =
      { clients := if env.send_fails i = true
          then Function.update st.clients i { st.clients i with active := 0 } else st.clients,
        server_running := st.server_running,
        trace := st.trace ++ [Event.send (st.clients i).sockfd m] } := by
  unfold send_private_message
  rw [h]
  by_cases hf : env.send_fails i = true
  · simp [hf, set_active, sys_send]
  · simp [hf, sys_send]

theorem send_private_message_not_found (st : State) (m N : CStr) (s : Fin MAX_CLIENTS)
    (env : Env) (h : find_target st N = none) :
    send_private_message st m N s env =
      sys_send st (st.clients s).sockfd
        (snprintf 128 (utf8 "[系统] 用户 '" ++ N ++ utf8 "' 不在线或不存在\n")) := by
  unfold send_private_message
  rw [h]

/-- C5 (amended). For a sender `s` whose name `A` has at most 31 bytes, a name
`B` without space of at most 31 bytes carried by some active session, and a
non-empty text `T`, the line `/msg B T` (at most 1023 bytes) makes the handler
send `[私聊][A -> 你]: T` to the lowest-index active session named `B`, then the
confirmation `[私聊][你 -> B]: T` to `s`, and nothing else. The table is
unchanged when the send to the target succeeds; when it fails, the target slot
is marked inactive and nothing else changes. -/
theorem msg_routing_found (st : State) (s : Fin MAX_CLIENTS) (B T : CStr) (env : Env)
    (hA : strlen (st.clients s).name ≤ 31)
    (hB : 32 ∉ B) (hBlen : strlen B ≤ 31) (hT : T ≠ [])
    (hline : strlen (msg_line B T) ≤ BUFFER_SIZE - 1)
    (hex : ∃ j, (st.clients j).active ≠ 0 ∧ (st.clients j).name = B) :
    ∃ i, ((st.clients i).active ≠ 0 ∧ (st.clients i).name = B) ∧
      (∀ j, j < i → ¬ ((st.clients j).active ≠ 0 ∧ (st.clients j).name = B)) ∧
      (handle_line st s (msg_line B T) env).2 = LoopCtl.next ∧
      (handle_line st s (msg_line B T) env).1.trace = st.trace ++
        [Event.send (st.clients i).sockfd (private_text (st.clients s).name T),
         Event.send (st.clients s).sockfd (confirm_text B T)] ∧
      (handle_line st s (msg_line B T) env).1.server_running = st.server_running ∧
      (env.send_fails i = false →
        (handle_line st s (msg_line B T) env).1.clients = st.clients) ∧
      (env.send_fails i = true →
        (handle_line st s (msg_line B T) env).1.clients
          = Function.update st.clients i { st.clients i with active := 0 }) := by
  obtain ⟨i, hi, hmin⟩ :=
    exists_lowest (fun j => (st.clients j).active ≠ 0 ∧ (st.clients j).name = B) hex
  have hf : find_target st B = some i := (find_target_some st B i).2 ⟨hi, hmin⟩
  have hTlen : T.length ≤ BUFFER_SIZE - 1 := by
    have := length_msg_line B T
    simp only [strlen] at hline
    omega
  refine ⟨i, hi, hmin, ?_⟩
  rw [handle_line_msg_line st s B T env hB hBlen hT, private_text_fits _ T hA hTlen,
    confirm_text_fits B T hBlen hTlen, send_private_message_found _ _ _ _ _ _ hf]
  refine ⟨rfl, by simp [sys_send], rfl, ?_, ?_⟩
  · intro h; simp [sys_send, h]
  · intro h; simp [sys_send, h]

/-- Witness for C5: 用户1 sends `/msg 用户2 hello`. -/
theorem msg_routing_found_witness :
    msg_line (utf8 "用户2") (utf8 "hello") = utf8 "/msg 用户2 hello" ∧
    (∃ i : Fin MAX_CLIENTS,
      (handle_line demo_state 0 (msg_line (utf8 "用户2") (utf8 "hello")) env_ok).1.trace
        = demo_state.trace ++
          [Event.send (demo_state.clients i).sockfd
            (private_text (demo_state.clients 0).name (utf8 "hello")),
           Event.send (demo_state.clients 0).sockfd
            (confirm_text (utf8 "用户2") (utf8 "hello"))]) ∧
    (handle_line demo_state 0 (utf8 "/msg 用户2 hello") env_ok).1.trace =
      [Event.send 5 (utf8 "[私聊][用户1 -> 你]: hello\n"),
       Event.send 4 (utf8 "[私聊][你 -> 用户2]: hello\n")] := by
  refine ⟨by decide, ?_, by decide⟩
  obtain ⟨i, _, _, _, h, _⟩ :=
    msg_routing_found demo_state 0 (utf8 "用户2") (utf8 "hello") env_ok
      (by decide) (by decide) (by decide) (by decide) (by decide) ⟨1, by decide⟩
  exact ⟨i, h⟩

/-- Counterexample to C5 as stated: when the send to the target fails, the
line `/msg 用户2 hello` changes the table, slot 1 is no longer active. -/
theorem msg_routing_failed_send_changes_table :
    (demo_state.clients 0).active = 1 ∧
    (demo_state.clients 1).active = 1 ∧ (demo_state.clients 1).name = utf8 "用户2" ∧
    ((handle_line demo_state 0 (utf8 "/msg 用户2 hello") env_fail).1.clients 1).active = 0 ∧
    (handle_line demo_state 0 (utf8 "/msg 用户2 hello") env_fail).1.clients ≠ demo_state.clients := by
  decide

/-- What the code does for a target that is not found: the not-found reply
and then, unconditionally, the confirmation, both to the sender. -/
theorem msg_routing_not_found (st : State) (s : Fin MAX_CLIENTS) (N T : CStr) (env : Env)
    (hN : 32 ∉ N) (hNlen : strlen N ≤ 31) (hT : T ≠ [])
    (hline : strlen (msg_line N T) ≤ BUFFER_SIZE - 1)
    (hno : ∀ j, ¬ ((st.clients j).active ≠ 0 ∧ (st.clients j).name = N)) :
    handle_line st s (msg_line N T) env =
      (sys_send (sys_send st (st.clients s).sockfd (not_found_text N))
        (st.clients s).sockfd (confirm_text N T), LoopCtl.next) := by
  have hf : find_target st N = none := (find_target_none st N).2 hno
  have hTlen : T.length ≤ BUFFER_SIZE - 1 := by
    have := length_msg_line N T
    simp only [strlen] at hline
    omega
  rw [handle_line_msg_line st s N T env hN hNlen hT, confirm_text_fits N T hNlen hTlen,
    send_private_message_not_found _ _ _ _ _ hf, not_found_text_fits N hNlen]

/-- C6 (code at the failing input). 用户1 sends `/msg ghost hello` while nobody is
named ghost: the sender is sent the not-found reply and then also the
confirmation `[私聊][你 -> ghost]: hello`. -/
theorem msg_ghost_also_confirms :
    (∀ j, ¬ ((demo_state.clients j).active ≠ 0 ∧ (demo_state.clients j).name = utf8 "ghost")) ∧
    (handle_line demo_state 0 (utf8 "/msg ghost hello") env_ok).1.trace =
      [Event.send 4 (utf8 "[系统] 用户 'ghost' 不在线或不存在\n"),
       Event.send 4 (utf8 "[私聊][你 -> ghost]: hello\n")] := by
  decide

/-- C7. Usage-error discrimination. A line that begins with `/msg` and does
not continue with a space gets the three-line reply `no_space_usage`, which
contains `[系统] 注意: /msg 后面必须有空格`; a line `/msg X` with no space in `X` gets
`[系统] 用法: /msg <用户名> <消息>`. In both cases the result is the old state with
that single send to the sender appended: no other send, table unchanged. -/
theorem msg_usage_errors (st : State) (s : Fin MAX_CLIENTS) (env : Env) :
    (∀ rest : CStr, rest.head? ≠ some 32 →
      handle_line st s (utf8 "/msg" ++ rest) env =
        (sys_send st (st.clients s).sockfd no_space_usage, LoopCtl.next)) ∧
    (∀ X : CStr, 32 ∉ X →
      handle_line st s (utf8 "/msg " ++ X) env =
        (sys_send st (st.clients s).sockfd (utf8 "[系统] 用法: /msg <用户名> <消息>\n"),
          LoopCtl.next)) ∧
    (utf8 "[系统] 注意: /msg 后面必须有空格" <:+: no_space_usage) ∧
    (∀ m, (sys_send st (st.clients s).sockfd m).clients = st.clients ∧
      (sys_send st (st.clients s).sockfd m).trace
        = st.trace ++ [Event.send (st.clients s).sockfd m]) := by
  refine ⟨?_, ?_, ?_, fun m => ⟨rfl, rfl⟩⟩
  · intro rest hrest
    unfold handle_line
    rw [utf8_quit, utf8_name_sp, utf8_list, utf8_msg_sp, utf8_msg]
    cases rest with
    | nil => simp [strncmp, no_space_usage]
    | cons c rest =>
      have hc : c ≠ 32 := by simpa using hrest
      simp [strncmp, no_space_usage, hc]
  · intro X hX
    rw [handle_line_msg, strchr_none X 32 hX]
  · refine ⟨utf8 "[系统] 私聊格式错误！正确用法: /msg 用户名 消息内容\n",
      utf8 "\n" ++ utf8 "[系统] 示例: /msg 用户2 你好\n", ?_⟩
    decide

/-- Witness for C7: the lines `/msg` and `/msg 用户2` sent by 用户1. -/
theorem msg_usage_errors_witness :
    handle_line demo_state 0 (utf8 "/msg") env_ok =
      (sys_send demo_state 4 no_space_usage, LoopCtl.next) ∧
    handle_line demo_state 0 (utf8 "/msg 用户2") env_ok =
      (sys_send demo_state 4 (utf8 "[系统] 用法: /msg <用户名> <消息>\n"), LoopCtl.next) := by
  have h := msg_usage_errors demo_state 0 env_ok
  exact ⟨h.1 [] (by decide), h.2.1 (utf8 "用户2") (by decide)⟩

/-- C8 (amended). For every name `N` without a space, the line `/msg N ` with
empty text makes the handler send the sender exactly `[系统] 消息内容不能为空`; the
result is the old state with that single send appended. -/
theorem msg_empty_text (st : State) (s : Fin MAX_CLIENTS) (N : CStr) (env : Env)
    (hN : 32 ∉ N) :
    handle_line st s (utf8 "/msg " ++ N ++ utf8 " ") env =
      (sys_send st (st.clients s).sockfd (utf8 "[系统] 消息内容不能为空\n"), LoopCtl.next) := by
  have e : utf8 "/msg " ++ N ++ utf8 " " = utf8 "/msg " ++ (N ++ 32 :: []) := by
    simp [utf8_sp]
  rw [e, handle_line_msg, strchr_append N [] 32 hN]
  have hd : List.drop (N.length + 1) (N ++ [32]) = [] := by
    apply List.drop_of_length_le
    simp
  simp [hd, strlen]

/-- Witness for C8: the line `/msg 用户2 ` sent by 用户1. -/
theorem msg_empty_text_witness :
    (handle_line demo_state 0 (utf8 "/msg " ++ utf8 "用户2" ++ utf8 " ") env_ok).1.trace =
      [Event.send 4 (utf8 "[系统] 消息内容不能为空\n")] := by
  rw [msg_empty_text demo_state 0 (utf8 "用户2") env_ok (by decide)]
  decide

/-- Counterexample to C8 as stated: for `/msg 用户2 ` the reply is not the
usage text. -/
theorem msg_empty_text_not_usage :
    (handle_line demo_state 0 (utf8 "/msg 用户2 ") env_ok).1.trace
      = [Event.send 4 (utf8 "[系统] 消息内容不能为空\n")] ∧
    (handle_line demo_state 0 (utf8 "/msg 用户2 ") env_ok).1.trace
      ≠ [Event.send 4 (utf8 "[系统] 用法: /msg <用户名> <消息>\n")] := by
  decide

/-- C9. Name lookup of `send_private_message`. The scan stops at slot `i`
exactly when `i` is the lowest-index slot that is active and whose name equals
`N`; it finds nothing exactly when no active slot is named `N`. When it stops
at `i` the only system call is the send of the message to the socket of `i`
(and only the `active` field of slot `i` can change, on a failed send); when it
finds nothing the only system call is the not-found reply to the sender. -/
theorem send_private_message_first_match (st : State) (m N : CStr) (s : Fin MAX_CLIENTS)
    (env : Env) :
    (∀ i, find_target st N = some i ↔
      ((st.clients i).active ≠ 0 ∧ (st.clients i).name = N) ∧
      ∀ j, j < i → ¬ ((st.clients j).active ≠ 0 ∧ (st.clients j).name = N)) ∧
    (find_target st N = none ↔
      ∀ i, ¬ ((st.clients i).active ≠ 0 ∧ (st.clients i).name = N)) ∧
    (∀ i, find_target st N = some i →
      send_private_message st m N s env =
        { clients := if env.send_fails i = true
            then Function.update st.clients i { st.clients i with active := 0 }
            else st.clients,
          server_running := st.server_running,
          trace := st.trace ++ [Event.send (st.clients i).sockfd m] }) ∧
    (find_target st N = none →
      send_private_message st m N s env =
        sys_send st (st.clients s).sockfd
          (snprintf 128 (utf8 "[系统] 用户 '" ++ N ++ utf8 "' 不在线或不存在\n"))) :=
  ⟨find_target_some st N, find_target_none st N,
    fun i h => send_private_message_found st m N s i env h,
    send_private_message_not_found st m N s env⟩

/-- C10 (amended). Let `N` be a name without a space and of at most 31 bytes,
and `T` a non-empty text. When two active sessions `i < j` carry the name `N`
and no active slot below `i` does, a line `/msg N T` from any session is sent
to the socket of slot `i`, the lowest-index one, whoever set the name last: the
scan stops at `i`, never at `j`, and the only other send is the confirmation to
the sender. -/
theorem duplicate_name_lowest_slot (st : State) (s i j : Fin MAX_CLIENTS) (N T : CStr)
    (env : Env) (hij : i < j)
    (hi : (st.clients i).active ≠ 0 ∧ (st.clients i).name = N)
    (hj : (st.clients j).active ≠ 0 ∧ (st.clients j).name = N)
    (hmin : ∀ k, k < i → ¬ ((st.clients k).active ≠ 0 ∧ (st.clients k).name = N))
    (hN : 32 ∉ N) (hNlen : strlen N ≤ 31) (hT : T ≠ []) :
    find_target st N = some i ∧ find_target st N ≠ some j ∧
    (handle_line st s (msg_line N T) env).1.trace = st.trace ++
      [Event.send (st.clients i).sockfd
        (snprintf (BUFFER_SIZE + 64)
          (utf8 "[私聊][" ++ (st.clients s).name ++ utf8 " -> 你]: " ++ T ++ utf8 "\n")),
       Event.send (st.clients s).sockfd
        (snprintf (BUFFER_SIZE + 64)
          (utf8 "[私聊][你 -> " ++ N ++ utf8 "]: " ++ T ++ utf8 "\n"))] := by
  have hf : find_target st N = some i := (find_target_some st N i).2 ⟨hi, hmin⟩
  have hne : find_target st N ≠ some j := by
    rw [hf]
    intro e
    exact absurd (Option.some.inj e) (ne_of_lt hij)
  have _ := hj
  refine ⟨hf, hne, ?_⟩
  rw [handle_line_msg_line st s N T env hN hNlen hT, send_private_message_found _ _ _ _ _ _ hf]
  simp [sys_send]

/-- Witness for C10: slots 0 and 1 are both named Bob, 用户3 writes `/msg Bob hi`. -/
theorem duplicate_name_lowest_slot_witness :
    (handle_line bob_state 2 (msg_line (utf8 "Bob") (utf8 "hi")) env_ok).1.trace =
      [Event.send 4 (utf8 "[私聊][用户3 -> 你]: hi\n"),
       Event.send 6 (utf8 "[私聊][你 -> Bob]: hi\n")] := by
  rw [(duplicate_name_lowest_slot bob_state 2 0 1 (utf8 "Bob") (utf8 "hi") env_ok
    (by decide) (by decide) (by decide) (by decide) (by decide) (by decide) (by decide)).2.2]
  decide

/-- Counterexample to C10 as stated: slot 0 takes the name Bob first, slot 1
takes it last; `/msg Bob hi` from 用户3 goes to socket 4 of slot 0, and nothing is
sent to socket 5 of slot 1, the last writer. -/
theorem last_writer_does_not_win :
    (bob_state.clients 0).name = utf8 "Bob" ∧ (bob_state.clients 0).sockfd = 4 ∧
    (bob_state.clients 1).name = utf8 "Bob" ∧ (bob_state.clients 1).sockfd = 5 ∧
    (bob_state.clients 0).active = 1 ∧ (bob_state.clients 1).active = 1 ∧
    (handle_line bob_state 2 (utf8 "/msg Bob hi") env_ok).1.trace =
      [Event.send 4 (utf8 "[私聊][用户3 -> 你]: hi\n"),
       Event.send 6 (utf8 "[私聊][你 -> Bob]: hi\n")] := by
  decide

/-! ## Rename and roster -/

theorem utf8_name : utf8 "/name" = [47, 110, 97, 109, 101] := by decide

/-- The `/name ` branch of the dispatch (lines 208-220). -/
theorem handle_line_name (st : State) (idx : Fin MAX_CLIENTS) (N : CStr) (env : Env) :
    handle_line st idx (name_line N) env =
      (broadcast_message (set_name st idx (N.take 31))
        (snprintf (BUFFER_SIZE + 64)
          (utf8 "[系统] "
            ++ (if strlen (st.clients idx).name < 31 then (st.clients idx).name
                else (st.clients idx).name.take 31 ++ env.stack)
            ++ utf8 " 改名为 " ++ N.take 31 ++ utf8 "\n")) (-1) env, LoopCtl.next) := by
  unfold handle_line name_line
  rw [utf8_quit, utf8_name_sp]
  simp [strncmp, set_name]

theorem not_neg_one (i : Fin MAX_CLIENTS) : (i.val : Int) ≠ -1 := by
  have : (0 : Int) ≤ (i.val : Int) := Int.ofNat_nonneg _
  omega

/-- Table after a `/name N` line of slot `s`, whatever the old name and the
outcome of the sends. -/
theorem rename_clients (st : State) (s : Fin MAX_CLIENTS) (N : CStr) (env : Env)
    (j : Fin MAX_CLIENTS) :
    (handle_line st s (name_line N) env).1.clients j =
      { sockfd := (st.clients j).sockfd, addr := (st.clients j).addr,
        name := if j = s then N.take 31 else (st.clients j).name,
        active := if (st.clients j).active ≠ 0 ∧ env.send_fails j = true then 0
          else (st.clients j).active } := by
  rw [handle_line_name]
  show (broadcast_message (set_name st s (N.take 31)) _ (-1) env).clients j = _
  rw [(broadcast_message_spec (set_name st s (N.take 31)) _ (-1) env).2.2 j]
  by_cases hj : j = s
  · subst hj
    by_cases hc : (st.clients j).active ≠ 0 ∧ env.send_fails j = true
    · rw [if_pos hc, if_pos]
      · simp [set_name]
      · exact ⟨by simpa [set_name] using hc.1, not_neg_one j, hc.2⟩
    · rw [if_neg hc, if_neg]
      · simp [set_name]
      · intro h
        exact hc ⟨by simpa [set_name] using h.1, h.2.2⟩
  · by_cases hc : (st.clients j).active ≠ 0 ∧ env.send_fails j = true
    · rw [if_pos hc, if_pos]
      · simp [set_name, Function.update_noteq hj, hj]
      · exact ⟨by simpa [set_name, Function.update_noteq hj] using hc.1, not_neg_one j, hc.2⟩
    · rw [if_neg hc, if_neg]
      · simp [set_name, Function.update_noteq hj, hj]
      · intro h
        exact hc ⟨by simpa [set_name, Function.update_noteq hj] using h.1, h.2.2⟩

/-- The `/list` branch of the dispatch (lines 221-234). -/
theorem handle_line_list (st : State) (idx : Fin MAX_CLIENTS) (rest : CStr) (env : Env) :
    handle_line st idx (utf8 "/list" ++ rest) env =
      (sys_send st (st.clients idx).sockfd (list_message st idx), LoopCtl.next) := by
  unfold handle_line
  rw [utf8_quit, utf8_name_sp, utf8_list]
  simp [strncmp]

theorem length_roster_entry (st : State) (idx i : Fin MAX_CLIENTS)
    (h : strlen (st.clients i).name ≤ 31) : (roster_entry st idx i).length ≤ 42 := by
  have h1 : (utf8 "  - ").length = 4 := by decide
  have h2 : (utf8 " (你)").length = 6 := by decide
  have h3 : (utf8 "\n").length = 1 := by decide
  unfold roster_entry
  simp only [strlen] at h
  by_cases hi : i = idx
  · subst hi
    simp only [if_true, List.length_append, h1, h2, h3]; omega
  · simp only [hi, if_false, List.length_append, h1, h3, List.length_nil]; omega

theorem list_fold (st : State) (idx : Fin MAX_CLIENTS) (l : List (Fin MAX_CLIENTS))
    (acc : CStr)
    (hnames : ∀ i ∈ l, (st.clients i).active ≠ 0 → strlen (st.clients i).name ≤ 31)
    (hacc : acc.length + 42 * l.length ≤ BUFFER_SIZE - 1) :
    l.foldl
      (fun list_msg i =>
        if (st.clients i).active ≠ 0 then
          let user_info := snprintf 64
            (utf8 "  - " ++ (st.clients i).name ++ (if i = idx then utf8 " (你)" else [])
              ++ utf8 "\n")
          strncat list_msg user_info (BUFFER_SIZE - strlen list_msg - 1)
        else list_msg) acc
      = acc ++ (l.filter (fun i => decide ((st.clients i).active ≠ 0))).flatMap
          (roster_entry st idx) := by
  induction l generalizing acc with
  | nil => simp
  | cons a l ih =>
    simp only [List.length_cons] at hacc
    rw [List.foldl_cons]
    by_cases ha : (st.clients a).active ≠ 0
    · have hlen := length_roster_entry st idx a (hnames a (List.mem_cons_self _ _) ha)
      have hs : snprintf 64
          (utf8 "  - " ++ (st.clients a).name ++ (if a = idx then utf8 " (你)" else [])
            ++ utf8 "\n") = roster_entry st idx a := by
        apply snprintf_fits
        unfold roster_entry at hlen
        omega
      have hc : strncat acc (roster_entry st idx a) (BUFFER_SIZE - strlen acc - 1)
          = acc ++ roster_entry st idx a := by
        unfold strncat
        rw [List.take_of_length_le]
        simp only [strlen, BUFFER_SIZE] at hacc ⊢
        omega
      rw [if_pos ha]
      simp only [hs, hc]
      rw [ih (acc ++ roster_entry st idx a)
        (fun i hi => hnames i (List.mem_cons_of_mem _ hi))
        (by simp only [List.length_append, BUFFER_SIZE] at hacc ⊢; omega)]
      simp [List.filter_cons, ha]
    · rw [if_neg ha, ih acc (fun i hi => hnames i (List.mem_cons_of_mem _ hi)) (by omega)]
      simp [List.filter_cons, ha]

theorem list_message_eq_roster (st : State) (idx : Fin MAX_CLIENTS)
    (hnames : ∀ i, (st.clients i).active ≠ 0 → strlen (st.clients i).name ≤ 31) :
    list_message st idx = roster st idx := by
  unfold list_message roster
  apply list_fold st idx _ _ (fun i _ => hnames i)
  have h : (utf8 "[在线用户列表]\n").length = 21 := by decide
  simp [h, MAX_CLIENTS]

theorem after_rename_clients (st : State) (s : Fin MAX_CLIENTS) (N : CStr) (env : Env)
    (hN : strlen N ≤ 31) (j : Fin MAX_CLIENTS) :
    (after_rename st s N env).clients j =
      { sockfd := (st.clients j).sockfd, addr := (st.clients j).addr,
        name := if j = s then N else (st.clients j).name,
        active := if (st.clients j).active ≠ 0 ∧ env.send_fails j = true then 0
          else (st.clients j).active } := by
  unfold after_rename
  rw [rename_clients, List.take_of_length_le hN]

theorem after_rename_active (st : State) (s : Fin MAX_CLIENTS) (N : CStr) (env : Env)
    (hN : strlen N ≤ 31) (j : Fin MAX_CLIENTS) :
    ((after_rename st s N env).clients j).active ≠ 0 ↔
      (st.clients j).active ≠ 0 ∧ env.send_fails j = false := by
  rw [after_rename_clients st s N env hN j]
  by_cases ha : (st.clients j).active ≠ 0
  · cases hf : env.send_fails j <;> simp [ha]
  · simp [ha]

/-- C12 (amended). Roster and rename visibility. In a table whose active
slots carry names of at most 31 bytes, a line beginning `/list` makes the
handler of `s` send its own socket exactly the text `roster st s` (header, then
one line `  - <name>` per active slot in ascending order, ` (你)` on the line of
`s` only) and changes nothing else. After slot `r` processed `/name N` with `N`
of at most 31 bytes, the same holds in the new table, where the line of slot
`r` carries `N` instead of the old name, the lines of the other slots are as
before, and a slot is listed exactly when it was active and its rename notice
was sent. -/
theorem list_spec (st : State) (s : Fin MAX_CLIENTS) (rest : CStr) (env : Env)
    (hnames : ∀ i, (st.clients i).active ≠ 0 → strlen (st.clients i).name ≤ 31) :
    handle_line st s (utf8 "/list" ++ rest) env =
      (sys_send st (st.clients s).sockfd (roster st s), LoopCtl.next) ∧
    (∀ (r : Fin MAX_CLIENTS) (N : CStr) (env1 : Env), strlen N ≤ 31 →
      handle_line (after_rename st r N env1) s (utf8 "/list" ++ rest) env =
        (sys_send (after_rename st r N env1) (st.clients s).sockfd
          (roster (after_rename st r N env1) s), LoopCtl.next) ∧
      roster_entry (after_rename st r N env1) s r =
        utf8 "  - " ++ N ++ (if r = s then utf8 " (你)" else []) ++ utf8 "\n" ∧
      (∀ i, i ≠ r → roster_entry (after_rename st r N env1) s i = roster_entry st s i) ∧
      (∀ i, ((after_rename st r N env1).clients i).active ≠ 0 ↔
        (st.clients i).active ≠ 0 ∧ env1.send_fails i = false)) := by
  constructor
  · rw [handle_line_list, list_message_eq_roster st s hnames]
  · intro r N env1 hN
    have hnames1 : ∀ i, ((after_rename st r N env1).clients i).active ≠ 0 →
        strlen ((after_rename st r N env1).clients i).name ≤ 31 := by
      intro i hi
      have ha := ((after_rename_active st r N env1 hN i).1 hi).1
      rw [after_rename_clients st r N env1 hN i]
      by_cases hir : i = r
      · simpa [hir] using hN
      · simpa [hir] using hnames i ha
    refine ⟨?_, ?_, ?_, after_rename_active st r N env1 hN⟩
    · rw [handle_line_list, list_message_eq_roster _ s hnames1,
        after_rename_clients st r N env1 hN s]
    · unfold roster_entry
      rw [after_rename_clients st r N env1 hN r]
      simp
    · intro i hi
      unfold roster_entry
      rw [after_rename_clients st r N env1 hN i]
      simp [hi]

/-- Witness for C12: 用户3 renames itself to Alice, then 用户1 asks for the list. -/
theorem list_spec_witness :
    roster (after_rename demo_state 2 (utf8 "Alice") env_ok) 0
      = utf8 "[在线用户列表]\n  - 用户1 (你)\n  - 用户2\n  - Alice\n" ∧
    handle_line (after_rename demo_state 2 (utf8 "Alice") env_ok) 0 (utf8 "/list" ++ []) env_ok =
      (sys_send (after_rename demo_state 2 (utf8 "Alice") env_ok) (demo_state.clients 0).sockfd
        (roster (after_rename demo_state 2 (utf8 "Alice") env_ok) 0), LoopCtl.next) :=
  ⟨by decide,
    ((list_spec demo_state 0 [] env_ok (by decide)).2 2 (utf8 "Alice") env_ok (by decide)).1⟩

/-- Counterexample to C12 as stated: 用户3 sends `/name` followed by 32 letters
`a`; the name stored and listed afterwards has only 31 of them. -/
theorem long_name_listed_cut :
    ((after_rename demo_state 2 (List.replicate 32 97) env_ok).clients 2).name
      = List.replicate 31 97 ∧
    ((after_rename demo_state 2 (List.replicate 32 97) env_ok).clients 2).active = 1 ∧
    (handle_line { after_rename demo_state 2 (List.replicate 32 97) env_ok with trace := [] } 0
        (utf8 "/list") env_ok).1.trace =
      [Event.send 4 (utf8 "[在线用户列表]\n  - 用户1 (你)\n  - 用户2\n  - "
        ++ List.replicate 31 97 ++ utf8 "\n")] := by
  decide

/-- C13 (amended). Let slot `s` process `/name N` with `N` of at most 31 bytes
and without a space. If afterwards `s` is active and no other active slot is
named `N`, then a line `/msg N T` with non-empty `T` from any slot `c` finds
slot `s`: the handler sends `[私聊][<name of c> -> 你]: T` to the socket of `s`,
then the confirmation to `c`, and no not-found reply. -/
theorem rename_addressable (st : State) (s c : Fin MAX_CLIENTS) (N T : CStr) (env env2 : Env)
    (hN : strlen N ≤ 31) (hsp : 32 ∉ N) (hT : T ≠ [])
    (hs : ((after_rename st s N env).clients s).active ≠ 0)
    (huniq : ∀ j, j ≠ s → ¬ (((after_rename st s N env).clients j).active ≠ 0 ∧
      ((after_rename st s N env).clients j).name = N))
    (hc : strlen ((after_rename st s N env).clients c).name ≤ 31)
    (hline : strlen (msg_line N T) ≤ BUFFER_SIZE - 1) :
    find_target (after_rename st s N env) N = some s ∧
    (handle_line (after_rename st s N env) c (msg_line N T) env2).1.trace =
      (after_rename st s N env).trace ++
        [Event.send (st.clients s).sockfd
          (private_text ((after_rename st s N env).clients c).name T),
         Event.send (st.clients c).sockfd (confirm_text N T)] := by
  have hname : ((after_rename st s N env).clients s).name = N := by
    rw [after_rename_clients st s N env hN s]; simp
  have hf : find_target (after_rename st s N env) N = some s := by
    rw [find_target_some]
    refine ⟨⟨hs, hname⟩, fun j hj => huniq j (ne_of_lt hj)⟩
  have hTlen : T.length ≤ BUFFER_SIZE - 1 := by
    have := length_msg_line N T
    simp only [strlen] at hline
    omega
  refine ⟨hf, ?_⟩
  rw [handle_line_msg_line _ c N T env2 hsp hN hT, private_text_fits _ T hc hTlen,
    confirm_text_fits N T hN hTlen, send_private_message_found _ _ _ _ _ _ hf]
  have h1 : ((after_rename st s N env).clients s).sockfd = (st.clients s).sockfd := by
    rw [after_rename_clients st s N env hN s]
  have h2 : ((after_rename st s N env).clients c).sockfd = (st.clients c).sockfd := by
    rw [after_rename_clients st s N env hN c]
  simp [sys_send, h1, h2]

/-- Witness for C13: 用户3 takes the name Alice, then 用户1 writes `/msg Alice hi`. -/
theorem rename_addressable_witness :
    (handle_line (after_rename demo_state 2 (utf8 "Alice") env_ok) 0
        (msg_line (utf8 "Alice") (utf8 "hi")) env_ok).1.trace =
      (after_rename demo_state 2 (utf8 "Alice") env_ok).trace ++
        [Event.send 6 (utf8 "[私聊][用户1 -> 你]: hi\n"),
         Event.send 4 (utf8 "[私聊][你 -> Alice]: hi\n")] := by
  rw [(rename_addressable demo_state 2 0 (utf8 "Alice") (utf8 "hi") env_ok env_ok
    (by decide) (by decide) (by decide) (by decide) (by decide) (by decide) (by decide)).2]
  decide

/-- Counterexample to C13 as stated: 用户3 takes the name `Bob Smith`, which
`/name` accepts and no other session carries; `/msg Bob Smith hi` from 用户1 then
looks for a session named `Bob`, sends nothing to socket 6 and answers with
the not-found reply. -/
theorem rename_with_space_not_addressable :
    ((after_rename demo_state 2 (utf8 "Bob Smith") env_ok).clients 2).name = utf8 "Bob Smith" ∧
    ((after_rename demo_state 2 (utf8 "Bob Smith") env_ok).clients 2).active = 1 ∧
    ((after_rename demo_state 2 (utf8 "Bob Smith") env_ok).clients 2).sockfd = 6 ∧
    (handle_line { after_rename demo_state 2 (utf8 "Bob Smith") env_ok with trace := [] } 0
        (utf8 "/msg Bob Smith hi") env_ok).1.trace =
      [Event.send 4 (utf8 "[系统] 用户 'Bob' 不在线或不存在\n"),
       Event.send 4 (utf8 "[私聊][你 -> Bob]: Smith hi\n")] := by
  decide

theorem rename_text_fits (O N : CStr) (hO : O.length ≤ 31) (hN : N.length ≤ 31) :
    snprintf (BUFFER_SIZE + 64) (utf8 "[系统] " ++ O ++ utf8 " 改名为 " ++ N ++ utf8 "\n")
      = rename_text O N := by
  have h1 : (utf8 "[系统] ").length = 9 := by decide
  have h2 : (utf8 " 改名为 ").length = 11 := by decide
  have h3 : (utf8 "\n").length = 1 := by decide
  apply snprintf_fits
  simp only [List.length_append, h1, h2, h3, BUFFER_SIZE]
  omega

theorem recipients_congr (st st1 : State) (x : Int)
    (h : ∀ i, (st1.clients i).active = (st.clients i).active) :
    recipients st1 x = recipients st x := by
  unfold recipients
  apply List.filter_congr
  intro i _
  rw [h i]

/-- C11 (amended). For a session `s` whose current name `O` has fewer than 31
bytes and a new name `N` of at most 31 bytes (possibly empty, no uniqueness
check), the line `/name N` sets the name of slot `s` to `N`, keeps socket,
address and name of every other slot, and sends the notice `[系统] O 改名为 N`
exactly once to every active slot in scan order, `s` included when it is
active. A slot is marked inactive exactly when the notice to it could not be
sent; when every send succeeds the table differs from the old one only in the
name of slot `s`. -/
theorem rename_spec (st : State) (s : Fin MAX_CLIENTS) (N : CStr) (env : Env)
    (hO : strlen (st.clients s).name < 31) (hN : strlen N ≤ 31) :
    (handle_line st s (name_line N) env).2 = LoopCtl.next ∧
    (handle_line st s (name_line N) env).1.trace = st.trace ++
      (recipients st (-1)).map
        (fun i => Event.send (st.clients i).sockfd (rename_text (st.clients s).name N)) ∧
    (∀ i, i ∈ recipients st (-1) ↔ (st.clients i).active ≠ 0) ∧
    (recipients st (-1)).Nodup ∧
    (∀ j, (handle_line st s (name_line N) env).1.clients j =
      { sockfd := (st.clients j).sockfd, addr := (st.clients j).addr,
        name := if j = s then N else (st.clients j).name,
        active := if (st.clients j).active ≠ 0 ∧ env.send_fails j = true then 0
          else (st.clients j).active }) ∧
    ((∀ i, env.send_fails i = false) →
      (handle_line st s (name_line N) env).1.clients
        = Function.update st.clients s { st.clients s with name := N }) := by
  have hN31 : N.take 31 = N := List.take_of_length_le hN
  have hact : ∀ i, ((set_name st s N).clients i).active = (st.clients i).active := by
    intro i
    by_cases hi : i = s
    · subst hi; simp [set_name]
    · simp [set_name, Function.update_noteq hi]
  have hfd : ∀ i, ((set_name st s N).clients i).sockfd = (st.clients i).sockfd := by
    intro i
    by_cases hi : i = s
    · subst hi; simp [set_name]
    · simp [set_name, Function.update_noteq hi]
  have hcl := after_rename_clients st s N env hN
  unfold after_rename at hcl
  refine ⟨by rw [handle_line_name], ?_, ?_, nodup_recipients st (-1), hcl, ?_⟩
  · rw [handle_line_name, if_pos hO, hN31, rename_text_fits _ N (le_of_lt hO) hN]
    show (broadcast_message (set_name st s N) _ (-1) env).trace = _
    rw [(broadcast_message_spec (set_name st s N) _ (-1) env).2.1,
      recipients_congr st (set_name st s N) (-1) hact]
    congr 1
    apply List.map_congr_left
    intro i _
    rw [hfd i]
  · intro i
    rw [mem_recipients]
    exact ⟨fun h => h.1, fun h => ⟨h, not_neg_one i⟩⟩
  · intro hok
    funext j
    rw [hcl j]
    by_cases hj : j = s
    · subst hj; simp [hok j]
    · simp [hok j, hj, Function.update_noteq hj]

/-- Witness for C11: 用户3 sends `/name Alice`. -/
theorem rename_spec_witness :
    name_line (utf8 "Alice") = utf8 "/name Alice" ∧
    (handle_line demo_state 2 (name_line (utf8 "Alice")) env_ok).1.clients
      = Function.update demo_state.clients 2 { demo_state.clients 2 with name := utf8 "Alice" } ∧
    (handle_line demo_state 2 (utf8 "/name Alice") env_ok).1.trace =
      [Event.send 4 (utf8 "[系统] 用户3 改名为 Alice\n"),
       Event.send 5 (utf8 "[系统] 用户3 改名为 Alice\n"),
       Event.send 6 (utf8 "[系统] 用户3 改名为 Alice\n")] :=
  ⟨by decide,
    (rename_spec demo_state 2 (utf8 "Alice") env_ok (by decide) (by decide)).2.2.2.2.2
      (fun _ => rfl),
    by decide⟩

/-- Counterexample to C11 as stated: when the sends of the rename notice fail,
the line `/name Alice` of 用户3 clears the active flag of the other slots and of
slot 2 itself. -/
theorem rename_failed_sends_clear_active :
    (demo_state.clients 0).active = 1 ∧ (demo_state.clients 2).active = 1 ∧
    ((handle_line demo_state 2 (utf8 "/name Alice") env_fail).1.clients 0).active = 0 ∧
    ((handle_line demo_state 2 (utf8 "/name Alice") env_fail).1.clients 2).active = 0 := by
  decide

/-! ## Chat lines and join notices -/

theorem strncmp_eq_zero (a b : CStr) (n : Nat) : strncmp a b n = 0 ↔ a.take n = b.take n := by
  unfold strncmp
  by_cases h : a.take n = b.take n <;> simp [h]

theorem strncmp_literal (line pre : CStr) :
    strncmp line pre pre.length = 0 ↔ begins_with line pre = true := by
  rw [strncmp_eq_zero, List.take_length]
  simp [begins_with]

theorem quit_test (line : CStr) :
    strncmp line (utf8 "/quit") 5 = 0 ↔ begins_with line (utf8 "/quit") = true :=
  strncmp_literal line (utf8 "/quit")

theorem name_test (line : CStr) :
    strncmp line (utf8 "/name ") 6 = 0 ↔ begins_with line (utf8 "/name ") = true :=
  strncmp_literal line (utf8 "/name ")

theorem list_test (line : CStr) :
    strncmp line (utf8 "/list") 5 = 0 ↔ begins_with line (utf8 "/list") = true :=
  strncmp_literal line (utf8 "/list")

theorem msg_sp_test (line : CStr) :
    strncmp line (utf8 "/msg ") 5 = 0 ↔ begins_with line (utf8 "/msg ") = true :=
  strncmp_literal line (utf8 "/msg ")

theorem msg_test (line : CStr) :
    strncmp line (utf8 "/msg") 4 = 0 ↔ begins_with line (utf8 "/msg") = true :=
  strncmp_literal line (utf8 "/msg")

theorem classify_chat (line : CStr) (h : classify line = Command.chat) :
    strncmp line (utf8 "/quit") 5 ≠ 0 ∧ strncmp line (utf8 "/name ") 6 ≠ 0 ∧
    strncmp line (utf8 "/list") 5 ≠ 0 ∧ strncmp line (utf8 "/msg ") 5 ≠ 0 ∧
    strncmp line (utf8 "/msg") 4 ≠ 0 := by
  rw [Ne, Ne, Ne, Ne, Ne, quit_test, name_test, list_test, msg_sp_test, msg_test]
  unfold classify at h
  split_ifs at h
  simp_all

/-- The last branch of the dispatch (lines 281-287): a public chat line. -/
theorem handle_line_chat (st : State) (idx : Fin MAX_CLIENTS) (L : CStr) (env : Env)
    (h : classify L = Command.chat) :
    handle_line st idx L env =
      (broadcast_message st
        (snprintf (BUFFER_SIZE + 64)
          (utf8 "[" ++ (st.clients idx).name ++ utf8 "]: " ++ L ++ utf8 "\n")) idx env,
        LoopCtl.next) := by
  obtain ⟨h1, h2, h3, h4, h5⟩ := classify_chat L h
  unfold handle_line
  rw [if_neg h1, if_neg h2, if_neg h3, if_neg h4, if_neg h5]

theorem chat_text_fits (A L : CStr) (hA : A.length ≤ 31) (hL : L.length ≤ BUFFER_SIZE - 1) :
    snprintf (BUFFER_SIZE + 64) (utf8 "[" ++ A ++ utf8 "]: " ++ L ++ utf8 "\n")
      = chat_text A L := by
  have h1 : (utf8 "[").length = 1 := by decide
  have h2 : (utf8 "]: ").length = 3 := by decide
  have h3 : (utf8 "\n").length = 1 := by decide
  apply snprintf_fits
  simp only [List.length_append, h1, h2, h3]
  simp only [BUFFER_SIZE] at hL ⊢
  omega

theorem join_text_fits (A : CStr) (hA : A.length ≤ 31) :
    snprintf (BUFFER_SIZE + 64) (utf8 "[系统] " ++ A ++ utf8 " 加入了聊天室\n") = join_text A := by
  have h1 : (utf8 "[系统] ").length = 9 := by decide
  have h2 : (utf8 " 加入了聊天室\n").length = 20 := by decide
  apply snprintf_fits
  simp only [List.length_append, h1, h2, BUFFER_SIZE]
  omega

theorem leave_text_fits (A : CStr) (hA : A.length ≤ 31) :
    snprintf (BUFFER_SIZE + 64) (utf8 "[系统] " ++ A ++ utf8 " 离开了聊天室\n") = leave_text A := by
  have h1 : (utf8 "[系统] ").length = 9 := by decide
  have h2 : (utf8 " 离开了聊天室\n").length = 20 := by decide
  apply snprintf_fits
  simp only [List.length_append, h1, h2, BUFFER_SIZE]
  omega

theorem welcome_text_fits (A : CStr) (hA : A.length ≤ 31) :
    snprintf BUFFER_SIZE (welcome_text A) = welcome_text A := by
  have h1 : (utf8 "欢迎来到聊天室！你的昵称是: ").length = 41 := by decide
  have h2 : (utf8 "\n").length = 1 := by decide
  have h3 : (utf8 "命令列表:\n").length = 14 := by decide
  have h4 : (utf8 "  /quit          - 退出聊天室\n").length = 35 := by decide
  have h5 : (utf8 "  /name <昵称>   - 修改昵称\n").length = 34 := by decide
  have h6 : (utf8 "  /list          - 查看在线用户\n").length = 38 := by decide
  have h7 : (utf8 "  /msg <用户> <消息> - 私聊指定用户\n").length = 46 := by decide
  have h8 : (utf8 "直接输入消息则广播给所有人\n").length = 40 := by decide
  apply snprintf_fits
  have : (welcome_text A).length = 41 + A.length + 208 := by
    unfold welcome_text
    simp only [List.length_append, h1, h2, h3, h4, h5, h6, h7, h8]
  simp only [BUFFER_SIZE]
  omega

theorem mem_recipients_self (st : State) (s i : Fin MAX_CLIENTS) :
    i ∈ recipients st (s.val : Int) ↔ (st.clients i).active ≠ 0 ∧ i ≠ s := by
  rw [mem_recipients]
  constructor
  · rintro ⟨h1, h2⟩
    exact ⟨h1, fun e => h2 (by rw [e])⟩
  · rintro ⟨h1, h2⟩
    exact ⟨h1, fun e => h2 (Fin.ext (by exact_mod_cast e))⟩

/-- C14. Broadcast exclusion. For a session `s` named `A` (at most 31 bytes):
a line `L` of at most 1023 bytes that matches no command prefix makes the
handler send `[A]: L` exactly once to every active slot other than `s`, in scan
order, and nothing else; the start of the handler sends the welcome block to
`s` and then `[系统] A 加入了聊天室` exactly once to every active slot other than `s`.
Slot `s` is never among the recipients. -/
theorem chat_and_join_exclusion (st : State) (s : Fin MAX_CLIENTS) (L : CStr) (env : Env)
    (hA : strlen (st.clients s).name ≤ 31) (hL : strlen L ≤ BUFFER_SIZE - 1)
    (hchat : classify L = Command.chat) :
    (handle_line st s L env).2 = LoopCtl.next ∧
    (handle_line st s L env).1.trace = st.trace ++
      (recipients st s.val).map
        (fun i => Event.send (st.clients i).sockfd (chat_text (st.clients s).name L)) ∧
    (handle_client_enter st s env).trace = st.trace ++
      Event.send (st.clients s).sockfd (welcome_text (st.clients s).name) ::
        (recipients st s.val).map
          (fun i => Event.send (st.clients i).sockfd (join_text (st.clients s).name)) ∧
    s ∉ recipients st s.val ∧
    (∀ i, i ∈ recipients st s.val ↔ (st.clients i).active ≠ 0 ∧ i ≠ s) ∧
    (recipients st s.val).Nodup := by
  refine ⟨?_, ?_, ?_, ?_, mem_recipients_self st s, nodup_recipients st _⟩
  · rw [handle_line_chat st s L env hchat]
  · rw [handle_line_chat st s L env hchat, chat_text_fits _ L hA hL]
    exact (broadcast_message_spec st _ _ env).2.1
  · unfold handle_client_enter
    simp only [welcome_text_fits _ hA]
    have e : (sys_send st (st.clients s).sockfd (welcome_text (st.clients s).name)).clients
        = st.clients := rfl
    rw [e, join_text_fits _ hA, (broadcast_message_spec _ _ _ env).2.1]
    have r : recipients (sys_send st (st.clients s).sockfd (welcome_text (st.clients s).name))
        s.val = recipients st s.val := recipients_congr _ _ _ (fun _ => rfl)
    rw [r]
    simp [sys_send]
  · intro h
    exact ((mem_recipients_self st s s).1 h).2 rfl

/-- Witness for C14: 用户3 says `hello all`, and 用户3 joins. -/
theorem chat_and_join_exclusion_witness :
    (handle_line demo_state 2 (utf8 "hello all") env_ok).1.trace =
      [Event.send 4 (utf8 "[用户3]: hello all\n"), Event.send 5 (utf8 "[用户3]: hello all\n")] ∧
    (handle_client_enter demo_state 2 env_ok).trace =
      [Event.send 6 (welcome_text (utf8 "用户3")),
       Event.send 4 (utf8 "[系统] 用户3 加入了聊天室\n"),
       Event.send 5 (utf8 "[系统] 用户3 加入了聊天室\n")] := by
  have h := chat_and_join_exclusion demo_state 2 (utf8 "hello all") env_ok
    (by decide) (by decide) (by decide)
  have hn : (demo_state.clients 2).name = utf8 "用户3" := by decide
  have hfd : (demo_state.clients 2).sockfd = 6 := by decide
  have ht : demo_state.trace = [] := rfl
  have hr : (recipients demo_state (2 : Fin MAX_CLIENTS).val).map
      (fun i => Event.send (demo_state.clients i).sockfd (join_text (utf8 "用户3")))
      = [Event.send 4 (utf8 "[系统] 用户3 加入了聊天室\n"),
         Event.send 5 (utf8 "[系统] 用户3 加入了聊天室\n")] := by decide
  refine ⟨?_, ?_⟩
  · rw [h.2.1]; decide
  · rw [h.2.2.1, hn, hfd, ht, hr]
    rfl

/-! ## Removal and disconnect -/

theorem remove_client_inactive (st : State) (i : Fin MAX_CLIENTS)
    (h : (st.clients i).active = 0) : remove_client st i = st := by
  unfold remove_client
  rw [if_neg (by simpa using h)]

theorem remove_client_active (st : State) (i : Fin MAX_CLIENTS)
    (h : (st.clients i).active ≠ 0) :
    remove_client st i =
      { clients := Function.update st.clients i
          { sockfd := -1, addr := (st.clients i).addr, name := [], active := 0 },
        server_running := st.server_running,
        trace := st.trace ++ [Event.close (st.clients i).sockfd] } := by
  unfold remove_client
  rw [if_pos h]
  simp [sys_close]

theorem remove_client_slot_inactive (st : State) (i : Fin MAX_CLIENTS) :
    ((remove_client st i).clients i).active = 0 := by
  by_cases h : (st.clients i).active ≠ 0
  · rw [remove_client_active st i h]; simp
  · rw [remove_client_inactive st i (by simpa using h)]; simpa using h

/-- C15. Idempotent removal. On an inactive slot `remove_client` returns the
state unchanged, with no close; on an active slot it performs exactly one close
of that slot's socket, sets `sockfd = -1`, `active = 0` and the empty name,
and leaves every other slot unchanged. Hence a second call changes nothing, and
the two calls together close the socket once if the slot was active and never
otherwise. -/
theorem remove_client_idempotent (st : State) (i : Fin MAX_CLIENTS) :
    ((st.clients i).active = 0 → remove_client st i = st) ∧
    ((st.clients i).active ≠ 0 →
      (remove_client st i).clients = Function.update st.clients i
          { sockfd := -1, addr := (st.clients i).addr, name := [], active := 0 } ∧
      (remove_client st i).trace = st.trace ++ [Event.close (st.clients i).sockfd] ∧
      (remove_client st i).server_running = st.server_running) ∧
    remove_client (remove_client st i) i = remove_client st i ∧
    (remove_client (remove_client st i) i).trace = st.trace ++
      (if (st.clients i).active ≠ 0 then [Event.close (st.clients i).sockfd] else []) ∧
    (∀ j, j ≠ i → (remove_client st i).clients j = st.clients j) := by
  have hidem : remove_client (remove_client st i) i = remove_client st i :=
    remove_client_inactive _ i (remove_client_slot_inactive st i)
  refine ⟨remove_client_inactive st i, ?_, hidem, ?_, ?_⟩
  · intro h
    rw [remove_client_active st i h]
    exact ⟨rfl, rfl, rfl⟩
  · rw [hidem]
    by_cases h : (st.clients i).active ≠ 0
    · rw [remove_client_active st i h, if_pos h]
    · rw [remove_client_inactive st i (by simpa using h), if_neg h, List.append_nil]
  · intro j hj
    by_cases h : (st.clients i).active ≠ 0
    · rw [remove_client_active st i h]
      simp [Function.update_noteq hj]
    · rw [remove_client_inactive st i (by simpa using h)]

theorem get_client_count_remove (st : State) (s : Fin MAX_CLIENTS)
    (h : (st.clients s).active ≠ 0) :
    get_client_count (remove_client st s) + 1 = get_client_count st := by
  rw [get_client_count_eq_card, get_client_count_eq_card]
  have e : active_slots st = insert s (active_slots (remove_client st s)) := by
    ext j
    by_cases hj : j = s
    · subst hj; simp [active_slots, h]
    · rw [remove_client_active st s h]
      simp [active_slots, hj, Function.update_noteq hj]
  rw [e, Finset.card_insert_of_not_mem]
  simp [active_slots, remove_client_slot_inactive st s]

theorem handle_recv_ends_loop (st : State) (s : Fin MAX_CLIENTS) (r : RecvResult) (env : Env)
    (hr : ends_loop r = true) : handle_recv st s r env = (st, LoopCtl.stop) := by
  unfold handle_recv
  by_cases hc : st.server_running = 0 ∨ (st.clients s).active = 0
  · rw [if_pos hc]
  · rw [if_neg hc]
    cases r with
    | error => rfl
    | data bytes =>
      simp only [ends_loop, Bool.or_eq_true, beq_iff_eq] at hr
      by_cases hb : bytes.length = 0
      · simp [hb]
      · have hq : begins_with (strip_line bytes) (utf8 "/quit") = true := by
          rcases hr with h | h
          · exact absurd h hb
          · exact h
        have hne : strlen (strip_line bytes) ≠ 0 := by
          intro h0
          have : strip_line bytes = [] := List.length_eq_zero.1 h0
          rw [this] at hq
          exact absurd hq (by decide)
        simp only [hb, if_false, hne]
        unfold handle_line
        rw [if_pos ((quit_test _).2 hq)]

/-- C16. Disconnect cleanup. Let `s` be active with a name `A` of at most 31
bytes and let its receive pass end the loop (read error, zero bytes, or a line
beginning with `/quit`). The pass itself changes nothing; the closing step then
closes the socket of `s` once, resets the slot (`sockfd = -1`, `active = 0`,
empty name), which lowers the active count by one, and sends
`[系统] A 离开了聊天室` exactly once to every slot that is still active, none of
which is `s`. -/
theorem disconnect_cleanup (st : State) (s : Fin MAX_CLIENTS) (r : RecvResult) (env : Env)
    (hact : (st.clients s).active ≠ 0) (hA : strlen (st.clients s).name ≤ 31)
    (hr : ends_loop r = true) :
    handle_recv st s r env = (st, LoopCtl.stop) ∧
    Op.apply st (Op.recv s r env) = handle_client_exit st s env ∧
    (remove_client st s).clients = Function.update st.clients s
      { sockfd := -1, addr := (st.clients s).addr, name := [], active := 0 } ∧
    get_client_count (remove_client st s) + 1 = get_client_count st ∧
    (handle_client_exit st s env).trace = st.trace ++
      Event.close (st.clients s).sockfd ::
        (recipients (remove_client st s) (-1)).map
          (fun i => Event.send (st.clients i).sockfd (leave_text (st.clients s).name)) ∧
    (∀ i, i ∈ recipients (remove_client st s) (-1) ↔ (st.clients i).active ≠ 0 ∧ i ≠ s) ∧
    (recipients (remove_client st s) (-1)).Nodup ∧
    (handle_client_exit st s env).clients s =
      { sockfd := -1, addr := (st.clients s).addr, name := [], active := 0 } ∧
    ((∀ i, env.send_fails i = false) →
      (handle_client_exit st s env).clients = (remove_client st s).clients) := by
  have hrecv := handle_recv_ends_loop st s r env hr
  have hrm := remove_client_active st s hact
  have hothers : ∀ j, j ≠ s → (remove_client st s).clients j = st.clients j := by
    intro j hj
    rw [hrm]
    simp [Function.update_noteq hj]
  have hself : (remove_client st s).clients s =
      { sockfd := -1, addr := (st.clients s).addr, name := [], active := 0 } := by
    rw [hrm]; simp
  have hmem : ∀ i, i ∈ recipients (remove_client st s) (-1) ↔
      (st.clients i).active ≠ 0 ∧ i ≠ s := by
    intro i
    rw [mem_recipients]
    by_cases hi : i = s
    · subst hi
      simp [hself]
    · rw [hothers i hi]
      exact ⟨fun h => ⟨h.1, hi⟩, fun h => ⟨h.1, not_neg_one i⟩⟩
  have hexit : handle_client_exit st s env =
      broadcast_message (remove_client st s) (leave_text (st.clients s).name) (-1) env := by
    unfold handle_client_exit
    simp only [List.take_of_length_le hA, leave_text_fits _ hA]
  obtain ⟨_, b2, b3⟩ :=
    broadcast_message_spec (remove_client st s) (leave_text (st.clients s).name) (-1) env
  refine ⟨hrecv, ?_, by rw [hrm], get_client_count_remove st s hact, ?_, hmem,
    nodup_recipients _ _, ?_, ?_⟩
  · simp only [Op.apply, hrecv]
  · rw [hexit, b2, hrm]
    simp only [List.append_assoc, List.singleton_append]
    congr 2
    apply List.map_congr_left
    intro i hi
    have hi' : i ≠ s := by
      have := (hmem i).1 (by rw [hrm]; exact hi)
      exact this.2
    simp [Function.update_noteq hi']
  · rw [hexit, b3 s, hself]
    simp
  · intro hok
    funext j
    rw [hexit, b3 j]
    simp [hok j]

/-- Witness for C16: 用户3 sends `/quit`. -/
theorem disconnect_cleanup_witness :
    Op.apply demo_state (Op.recv 2 (RecvResult.data (utf8 "/quit\n")) env_ok)
      = handle_client_exit demo_state 2 env_ok ∧
    (handle_client_exit demo_state 2 env_ok).trace =
      [Event.close 6, Event.send 4 (utf8 "[系统] 用户3 离开了聊天室\n"),
       Event.send 5 (utf8 "[系统] 用户3 离开了聊天室\n")] :=
  ⟨(disconnect_cleanup demo_state 2 (RecvResult.data (utf8 "/quit\n")) env_ok
      (by decide) (by decide) (by decide)).2.1, by decide⟩

/-! ## Leak after a failed send, shutdown -/

/-- C17 (code at the failing input). After the send of a chat line to 用户2 has
failed, slot 1 is inactive while socket 5 is still open; the closing step of
that handler then skips the close because the slot is already inactive: the
run ends with slot 1 free and no `close 5` at all. -/
theorem failed_send_leaks_connection :
    leak_state.trace =
      [Event.spawn 0, Event.spawn 1, Event.send 5 (utf8 "[用户1]: hello\n"),
       Event.send 4 (utf8 "[系统] 用户2 离开了聊天室\n")] ∧
    (leak_state.clients 1).active = 0 ∧ (leak_state.clients 1).sockfd = 5 ∧
    Event.close 5 ∉ leak_state.trace := by
  decide

/-- A loop over the slots whose step rewrites only the slot it visits and
appends events computed from that slot. -/
theorem slot_fold (f : State → Fin MAX_CLIENTS → State)
    (g : Fin MAX_CLIENTS → ClientInfo → ClientInfo)
    (e : Fin MAX_CLIENTS → ClientInfo → List Event)
    (hf : ∀ st a, f st a =
      { clients := Function.update st.clients a (g a (st.clients a)),
        server_running := st.server_running,
        trace := st.trace ++ e a (st.clients a) })
    (l : List (Fin MAX_CLIENTS)) (hl : l.Nodup) (st : State) :
    l.foldl f st =
      { clients := fun j => if j ∈ l then g j (st.clients j) else st.clients j,
        server_running := st.server_running,
        trace := st.trace ++ l.flatMap (fun i => e i (st.clients i)) } := by
  induction l generalizing st with
  | nil => simp
  | cons a l ih =>
    rw [List.nodup_cons] at hl
    obtain ⟨hal, hl⟩ := hl
    rw [List.foldl_cons, ih hl (f st a), hf st a]
    have hne : ∀ j ∈ l, j ≠ a := fun j hj e => hal (e ▸ hj)
    congr 1
    · funext j
      by_cases hjl : j ∈ l
      · simp [hjl, Function.update_noteq (hne j hjl)]
      · by_cases hja : j = a
        · subst hja; simp [hjl]
        · simp [hjl, hja, Function.update_noteq hja]
    · simp only [List.flatMap_cons, List.append_assoc]
      congr 2
      apply List.flatMap_congr
      intro i hi
      simp [Function.update_noteq (hne i hi)]

theorem flatMap_active (st : State) (h : ClientInfo → List Event) (l : List (Fin MAX_CLIENTS)) :
    l.flatMap (fun i => if (st.clients i).active ≠ 0 then h (st.clients i) else [])
      = (l.filter (fun i => decide ((st.clients i).active ≠ 0))).flatMap
          (fun i => h (st.clients i)) := by
  induction l with
  | nil => simp
  | cons a l ih =>
    by_cases ha : (st.clients a).active ≠ 0
    · rw [List.flatMap_cons, if_pos ha, List.filter_cons_of_pos (by simpa using ha),
        List.flatMap_cons, ih]
    · rw [List.flatMap_cons, if_neg ha, List.filter_cons_of_neg (by simpa using ha), ih,
        List.nil_append]

theorem flatMap_single {α β : Type} (f : α → β) (l : List α) :
    l.flatMap (fun i => [f i]) = l.map f := by
  induction l with
  | nil => rfl
  | cons a l ih => rw [List.flatMap_cons, ih]; rfl

theorem recipients_all (st : State) :
    recipients st (-1)
      = (List.finRange MAX_CLIENTS).filter (fun i => decide ((st.clients i).active ≠ 0)) := by
  unfold recipients
  apply List.filter_congr
  intro i _
  simp [not_neg_one i]

theorem signal_handler_eq (st : State) :
    signal_handler st =
      { clients := fun j => { st.clients j with active := 0 },
        server_running := 0,
        trace := st.trace ++ (recipients st (-1)).flatMap
          (fun i => [Event.send (st.clients i).sockfd (utf8 "[系统] 服务器关闭\n"),
            Event.close (st.clients i).sockfd]) } := by
  unfold signal_handler
  rw [slot_fold _
    (fun _ c => if c.active ≠ 0 then { c with active := 0 } else c)
    (fun _ c => if c.active ≠ 0
      then [Event.send c.sockfd (utf8 "[系统] 服务器关闭\n"), Event.close c.sockfd] else [])
    ?_ _ (List.nodup_finRange _)]
  · congr 1
    · funext j
      by_cases hj : (st.clients j).active ≠ 0
      · simp [hj, List.mem_finRange]
      · have h0 : (st.clients j).active = 0 := by simpa using hj
        simp only [List.mem_finRange, if_true, hj, if_false]
        rw [← h0]
    · rw [recipients_all]
      congr 1
      exact flatMap_active st
        (fun c => [Event.send c.sockfd (utf8 "[系统] 服务器关闭\n"), Event.close c.sockfd]) _
  · intro s a
    by_cases ha : (s.clients a).active ≠ 0
    · simp [ha, set_active, sys_close, sys_send]
    · simp [ha]

theorem remove_all_eq (st : State) :
    remove_all st =
      { clients := fun j =>
          if (st.clients j).active ≠ 0
          then { sockfd := -1, addr := (st.clients j).addr, name := [], active := 0 }
          else st.clients j,
        server_running := st.server_running,
        trace := st.trace ++ (recipients st (-1)).map
          (fun i => Event.close (st.clients i).sockfd) } := by
  unfold remove_all
  rw [slot_fold _
    (fun _ c => if c.active ≠ 0
      then { sockfd := -1, addr := c.addr, name := [], active := 0 } else c)
    (fun _ c => if c.active ≠ 0 then [Event.close c.sockfd] else [])
    ?_ _ (List.nodup_finRange _)]
  · congr 1
    · funext j
      simp [List.mem_finRange]
    · rw [recipients_all]
      congr 1
      rw [flatMap_active st (fun c => [Event.close c.sockfd])]
      exact flatMap_single (fun i => Event.close (st.clients i).sockfd) _
  · intro s a
    by_cases ha : (s.clients a).active ≠ 0
    · rw [remove_client_active s a ha]; simp [ha]
    · rw [remove_client_inactive s a (by simpa using ha)]; simp [ha]

/-- C18 (amended). For every table state the shutdown handler clears
`server_running`, sends `[系统] 服务器关闭` exactly once to every active slot and to
no inactive one, closes each of these sockets right after its send, and leaves
no active slot. Every slot keeps its `sockfd`, address and name: only the
`active` fields change. `remove_client` applied to every slot closes the same
sockets and yields the same `active` fields and addresses, but resets `sockfd`
to -1 and the name to the empty string in every slot that was active. -/
theorem shutdown_spec (st : State) :
    (signal_handler st).server_running = 0 ∧
    (signal_handler st).trace = st.trace ++ (recipients st (-1)).flatMap
      (fun i => [Event.send (st.clients i).sockfd (utf8 "[系统] 服务器关闭\n"),
        Event.close (st.clients i).sockfd]) ∧
    (∀ i, i ∈ recipients st (-1) ↔ (st.clients i).active ≠ 0) ∧
    (recipients st (-1)).Nodup ∧
    (∀ j, (signal_handler st).clients j = { st.clients j with active := 0 }) ∧
    get_client_count (signal_handler st) = 0 ∧
    (remove_all st).trace = st.trace ++
      (recipients st (-1)).map (fun i => Event.close (st.clients i).sockfd) ∧
    (∀ j, (remove_all st).clients j =
      if (st.clients j).active ≠ 0
      then { (signal_handler st).clients j with sockfd := -1, name := [] }
      else (signal_handler st).clients j) := by
  have hs := signal_handler_eq st
  have hr := remove_all_eq st
  refine ⟨by rw [hs], by rw [hs], ?_, nodup_recipients st _, fun j => by rw [hs], ?_,
    by rw [hr], ?_⟩
  · intro i
    rw [mem_recipients]
    exact ⟨fun h => h.1, fun h => ⟨h, not_neg_one i⟩⟩
  · rw [get_client_count_eq_card, hs]
    simp [active_slots]
  · intro j
    rw [hr, hs]
    by_cases hj : (st.clients j).active ≠ 0
    · simp [hj]
    · have h0 : (st.clients j).active = 0 := by simpa using hj
      simp only [hj, if_false]
      rw [← h0]

/-- Counterexample to C18 as stated: after shutdown slot 0 still holds socket 4
and the name 用户1, whereas removing every session leaves -1 and the empty
name, so the two tables differ. -/
theorem shutdown_table_differs_from_removal :
    ((signal_handler demo_state).clients 0).sockfd = 4 ∧
    ((signal_handler demo_state).clients 0).name = utf8 "用户1" ∧
    ((remove_all demo_state).clients 0).sockfd = -1 ∧
    ((remove_all demo_state).clients 0).name = [] ∧
    (signal_handler demo_state).clients ≠ (remove_all demo_state).clients := by
  decide

/-! ## Line endings -/

theorem utf8_lf : utf8 "\n" = [10] := by decide
theorem utf8_crlf : utf8 "\r\n" = [13, 10] := by decide

theorem takeWhile_cons_pos (p : Nat → Bool) (a : Nat) (l : List Nat) (h : p a = true) :
    (a :: l).takeWhile p = a :: l.takeWhile p := by
  rw [List.takeWhile_cons, if_pos h]

theorem takeWhile_cons_neg (p : Nat → Bool) (a : Nat) (l : List Nat) (h : ¬ p a = true) :
    (a :: l).takeWhile p = [] := by
  rw [List.takeWhile_cons, if_neg h]

/-- The cut at the first CR or LF, written as a `takeWhile`. -/
theorem strip_line_eq (bytes : List Nat) :
    strip_line bytes =
      ((bytes.take (BUFFER_SIZE - 1)).takeWhile (fun c => c ≠ 0)).takeWhile
        (fun c => !([13, 10] : List Nat).contains c) := by
  unfold strip_line strcspn
  simp only
  generalize (bytes.take (BUFFER_SIZE - 1)).takeWhile (fun c => c ≠ 0) = b
  induction b with
  | nil => rfl
  | cons x b ih =>
    by_cases hx : (!([13, 10] : List Nat).contains x) = true
    · rw [takeWhile_cons_pos _ x b hx, List.length_cons, List.take_succ_cons, ih]
    · rw [takeWhile_cons_neg _ x b hx]
      rfl

/-- Cutting at the first byte that fails `p` is blind to what follows such a byte. -/
theorem takeWhile_append_stop (p : Nat → Bool) (l r : List Nat) (x : Nat) (hx : p x = false) :
    (l ++ x :: r).takeWhile p = l.takeWhile p := by
  induction l with
  | nil =>
    rw [List.nil_append, takeWhile_cons_neg p x r (by simp [hx])]
    rfl
  | cons a l ih =>
    by_cases ha : p a = true
    · rw [List.cons_append, takeWhile_cons_pos p a _ ha, takeWhile_cons_pos p a _ ha, ih]
    · rw [List.cons_append, takeWhile_cons_neg p a _ ha, takeWhile_cons_neg p a _ ha]

theorem takeWhile_all (p : Nat → Bool) (l : List Nat) (h : ∀ c ∈ l, p c = true) :
    l.takeWhile p = l := by
  induction l with
  | nil => rfl
  | cons a l ih =>
    rw [takeWhile_cons_pos p a l (h a (List.mem_cons_self _ _)),
      ih (fun c hc => h c (List.mem_cons_of_mem _ hc))]

theorem takeWhile_append_all (p : Nat → Bool) (l r : List Nat) (h : ∀ c ∈ l, p c = true) :
    (l ++ r).takeWhile p = l ++ r.takeWhile p := by
  induction l with
  | nil => rfl
  | cons a l ih =>
    rw [List.cons_append, takeWhile_cons_pos p a _ (h a (List.mem_cons_self _ _)),
      ih (fun c hc => h c (List.mem_cons_of_mem _ hc)), List.cons_append]

/-- The stripping seen as one function of a prefix-closed kind: a terminator
appended to a text without CR and LF does not change the result. -/
theorem strip_line_terminated (L t : List Nat) (x : Nat) (hcr : 13 ∉ L) (hlf : 10 ∉ L)
    (hx : x = 13 ∨ x = 10) : strip_line (L ++ x :: t) = strip_line L := by
  have hstop : (fun c => !([13, 10] : List Nat).contains c) x = false := by
    rcases hx with rfl | rfl <;> decide
  have hx0 : (fun c : Nat => decide (c ≠ 0)) x = true := by
    rcases hx with rfl | rfl <;> decide
  have hkeep : ∀ (l : List Nat), (∀ c ∈ l, c ∈ L) →
      l.takeWhile (fun c => !([13, 10] : List Nat).contains c) = l := by
    intro l hl
    apply takeWhile_all
    intro c hc
    have hcL := hl c hc
    have h13 : c ≠ 13 := fun e => hcr (e ▸ hcL)
    have h10 : c ≠ 10 := fun e => hlf (e ▸ hcL)
    simp [h13, h10]
  rw [strip_line_eq, strip_line_eq]
  by_cases hlen : L.length ≤ BUFFER_SIZE - 1
  · rw [List.take_append_eq_append_take, List.take_of_length_le hlen]
    by_cases h0 : ∀ c ∈ L, (fun c : Nat => decide (c ≠ 0)) c = true
    · cases ht : List.take (BUFFER_SIZE - 1 - L.length) (x :: t) with
      | nil => rw [List.append_nil]
      | cons y r =>
        have hy : y = x := by
          cases hn : BUFFER_SIZE - 1 - L.length with
          | zero => rw [hn] at ht; simp at ht
          | succ n => rw [hn, List.take_succ_cons] at ht; exact (List.cons.inj ht).1.symm
        subst hy
        rw [takeWhile_all _ L h0, hkeep L (fun c hc => hc), takeWhile_append_all _ L _ h0,
          takeWhile_cons_pos _ y r hx0, takeWhile_append_stop _ _ _ _ hstop,
          hkeep L (fun c hc => hc)]
    · have hsame : (L ++ List.take (BUFFER_SIZE - 1 - L.length) (x :: t)).takeWhile
          (fun c : Nat => decide (c ≠ 0)) = L.takeWhile (fun c : Nat => decide (c ≠ 0)) := by
        push_neg at h0
        obtain ⟨c, hc, hpc⟩ := h0
        obtain ⟨l1, l2, rfl⟩ := List.append_of_mem hc
        rw [List.append_assoc, List.cons_append,
          takeWhile_append_stop _ _ _ _ (by simpa using hpc),
          takeWhile_append_stop _ _ _ _ (by simpa using hpc)]
      rw [hsame]
  · have hlen' : BUFFER_SIZE - 1 ≤ L.length := by omega
    rw [List.take_append_of_le_length hlen']

theorem handle_recv_congr (st : State) (s : Fin MAX_CLIENTS) (d1 d2 : List Nat) (env : Env)
    (h1 : d1 ≠ []) (h2 : d2 ≠ []) (h : strip_line d1 = strip_line d2) :
    handle_recv st s (RecvResult.data d1) env = handle_recv st s (RecvResult.data d2) env := by
  have e1 : ¬ d1.length = 0 := fun e => h1 (List.length_eq_zero.1 e)
  have e2 : ¬ d2.length = 0 := fun e => h2 (List.length_eq_zero.1 e)
  unfold handle_recv
  simp only [e1, e2, if_false, h]

theorem handle_recv_empty_line (st : State) (s : Fin MAX_CLIENTS) (d : List Nat) (env : Env)
    (hrun : st.server_running ≠ 0) (hact : (st.clients s).active ≠ 0)
    (hd : d ≠ []) (h : strip_line d = []) :
    handle_recv st s (RecvResult.data d) env = (st, LoopCtl.next) := by
  have e1 : ¬ d.length = 0 := fun e => hd (List.length_eq_zero.1 e)
  unfold handle_recv
  rw [if_neg (by simp [hrun, hact])]
  simp [e1, h, strlen]

/-- C19 (amended). Let `L` contain neither CR nor LF. The data `L`, `L` + LF
and `L` + CR LF are stripped to the same line, which is `L` itself when `L` has
no NUL byte and at most 1023 bytes; for non-empty `L` the three receive passes
have the same result, namely the dispatch of the line `L`. The data LF and
CR LF are an empty line: while the session is in its loop they are ignored,
nothing is sent, nothing changes and the loop continues. A read of zero bytes
is not an empty line: it ends the loop. -/
theorem line_ending_stripping (L : List Nat) (hcr : 13 ∉ L) (hlf : 10 ∉ L) :
    strip_line (L ++ utf8 "\n") = strip_line L ∧
    strip_line (L ++ utf8 "\r\n") = strip_line L ∧
    (0 ∉ L → L.length ≤ BUFFER_SIZE - 1 → strip_line L = L) ∧
    (L ≠ [] → ∀ (st : State) (s : Fin MAX_CLIENTS) (env : Env),
      handle_recv st s (RecvResult.data (L ++ utf8 "\n")) env
        = handle_recv st s (RecvResult.data L) env ∧
      handle_recv st s (RecvResult.data (L ++ utf8 "\r\n")) env
        = handle_recv st s (RecvResult.data L) env) ∧
    (L ≠ [] → 0 ∉ L → L.length ≤ BUFFER_SIZE - 1 →
      ∀ (st : State) (s : Fin MAX_CLIENTS) (env : Env),
        st.server_running ≠ 0 → (st.clients s).active ≠ 0 →
        handle_recv st s (RecvResult.data L) env = handle_line st s L env) ∧
    (∀ (st : State) (s : Fin MAX_CLIENTS) (env : Env),
      st.server_running ≠ 0 → (st.clients s).active ≠ 0 →
      handle_recv st s (RecvResult.data (utf8 "\n")) env = (st, LoopCtl.next) ∧
      handle_recv st s (RecvResult.data (utf8 "\r\n")) env = (st, LoopCtl.next)) ∧
    (∀ (st : State) (s : Fin MAX_CLIENTS) (env : Env),
      handle_recv st s (RecvResult.data []) env = (st, LoopCtl.stop)) := by
  have s1 : strip_line (L ++ utf8 "\n") = strip_line L := by
    rw [utf8_lf]
    exact strip_line_terminated L [] 10 hcr hlf (Or.inr rfl)
  have s2 : strip_line (L ++ utf8 "\r\n") = strip_line L := by
    rw [utf8_crlf]
    exact strip_line_terminated L [10] 13 hcr hlf (Or.inl rfl)
  have s3 : 0 ∉ L → L.length ≤ BUFFER_SIZE - 1 → strip_line L = L := by
    intro h0 hlen
    rw [strip_line_eq, List.take_of_length_le hlen,
      takeWhile_all _ L (fun c hc => by
        have : c ≠ 0 := fun e => h0 (e ▸ hc)
        simpa using this)]
    apply takeWhile_all
    intro c hc
    have h13 : c ≠ 13 := fun e => hcr (e ▸ hc)
    have h10 : c ≠ 10 := fun e => hlf (e ▸ hc)
    simp [h13, h10]
  refine ⟨s1, s2, s3, ?_, ?_, ?_, ?_⟩
  · intro hL st s env
    exact ⟨handle_recv_congr st s _ _ env (by simp [hL]) hL s1,
      handle_recv_congr st s _ _ env (by simp [hL]) hL s2⟩
  · intro hL h0 hlen st s env hrun hact
    have e1 : ¬ L.length = 0 := fun e => hL (List.length_eq_zero.1 e)
    unfold handle_recv
    rw [if_neg (by simp [hrun, hact])]
    simp [e1, s3 h0 hlen, strlen, hL]
  · intro st s env hrun hact
    exact ⟨handle_recv_empty_line st s _ env hrun hact (by decide) (by decide),
      handle_recv_empty_line st s _ env hrun hact (by decide) (by decide)⟩
  · intro st s env
    unfold handle_recv
    by_cases hc : st.server_running = 0 ∨ (st.clients s).active = 0
    · rw [if_pos hc]
    · rw [if_neg hc]; simp

/-- Witness for C19: the chat line `hi` of 用户1 with and without line ending. -/
theorem line_ending_stripping_witness :
    strip_line (utf8 "hi" ++ utf8 "\r\n") = utf8 "hi" ∧
    handle_recv demo_state 0 (RecvResult.data (utf8 "hi" ++ utf8 "\r\n")) env_ok
      = handle_recv demo_state 0 (RecvResult.data (utf8 "hi")) env_ok := by
  have h := line_ending_stripping (utf8 "hi") (by decide) (by decide)
  exact ⟨by decide, ((h.2.2.2.1 (by decide)) demo_state 0 env_ok).2⟩

/-- Counterexample to C19 as stated: for the empty text the data LF is ignored
and the loop continues, but the empty data itself (a read of zero bytes) ends
the loop, and the closing step then closes socket 4 and notifies the others. -/
theorem zero_bytes_not_ignored :
    (handle_recv demo_state 0 (RecvResult.data ([] ++ utf8 "\n")) env_ok).2 = LoopCtl.next ∧
    (handle_recv demo_state 0 (RecvResult.data []) env_ok).2 = LoopCtl.stop ∧
    (Op.apply demo_state (Op.recv 0 (RecvResult.data []) env_ok)).trace =
      [Event.close 4, Event.send 5 (utf8 "[系统] 用户1 离开了聊天室\n"),
       Event.send 6 (utf8 "[系统] 用户1 离开了聊天室\n")] ∧
    ((Op.apply demo_state (Op.recv 0 (RecvResult.data []) env_ok)).clients 0).active = 0 := by
  decide

/-! ## Command dispatch -/

theorem begins_with_append (pre rest : CStr) : begins_with (pre ++ rest) pre = true := by
  simp [begins_with]

/-- C20. Command classification. The dispatch performs exactly the action of
`classify buffer`, the first matching test in the order `/quit`, `/name `,
`/list`, `/msg `, `/msg`, otherwise chat. A line beginning with `/quit` only ends
the loop and a line beginning with `/list` only sends the roster, whatever
follows the command word; `/name` not followed by a space is a chat line and is
broadcast as such. -/
theorem dispatch_by_classify (st : State) (idx : Fin MAX_CLIENTS) (buffer : CStr) (env : Env) :
    handle_line st idx buffer env = (classify buffer).exec st idx buffer env ∧
    (∀ rest : CStr, classify (utf8 "/quit" ++ rest) = Command.quit ∧
      handle_line st idx (utf8 "/quit" ++ rest) env = (st, LoopCtl.stop)) ∧
    (∀ rest : CStr, classify (utf8 "/list" ++ rest) = Command.roster ∧
      handle_line st idx (utf8 "/list" ++ rest) env =
        (sys_send st (st.clients idx).sockfd (list_message st idx), LoopCtl.next)) ∧
    (∀ rest : CStr, rest.head? ≠ some 32 →
      classify (utf8 "/name" ++ rest) = Command.chat ∧
      handle_line st idx (utf8 "/name" ++ rest) env =
        (broadcast_message st
          (snprintf (BUFFER_SIZE + 64)
            (utf8 "[" ++ (st.clients idx).name ++ utf8 "]: " ++ (utf8 "/name" ++ rest)
              ++ utf8 "\n")) idx env, LoopCtl.next)) := by
  have hmain : ∀ b : CStr, handle_line st idx b env = (classify b).exec st idx b env := by
    intro b
    unfold handle_line classify
    by_cases h1 : begins_with b (utf8 "/quit") = true
    · rw [if_pos ((quit_test b).2 h1), if_pos h1]; rfl
    · rw [if_neg (fun h => h1 ((quit_test b).1 h)), if_neg h1]
      by_cases h2 : begins_with b (utf8 "/name ") = true
      · rw [if_pos ((name_test b).2 h2), if_pos h2]; rfl
      · rw [if_neg (fun h => h2 ((name_test b).1 h)), if_neg h2]
        by_cases h3 : begins_with b (utf8 "/list") = true
        · rw [if_pos ((list_test b).2 h3), if_pos h3]; rfl
        · rw [if_neg (fun h => h3 ((list_test b).1 h)), if_neg h3]
          by_cases h4 : begins_with b (utf8 "/msg ") = true
          · rw [if_pos ((msg_sp_test b).2 h4), if_pos h4]
            show _ = do_private st idx b env
            unfold do_private
            cases strchr (List.drop 5 b) 32 <;> rfl
          · rw [if_neg (fun h => h4 ((msg_sp_test b).1 h)), if_neg h4]
            by_cases h5 : begins_with b (utf8 "/msg") = true
            · rw [if_pos ((msg_test b).2 h5), if_pos h5]; rfl
            · rw [if_neg (fun h => h5 ((msg_test b).1 h)), if_neg h5]; rfl
  have hq : ∀ rest : CStr, classify (utf8 "/quit" ++ rest) = Command.quit := by
    intro rest
    unfold classify
    rw [if_pos (begins_with_append _ rest)]
  have hl : ∀ rest : CStr, classify (utf8 "/list" ++ rest) = Command.roster := by
    intro rest
    unfold classify
    rw [utf8_quit, utf8_name_sp, utf8_list]
    simp [begins_with]
  have hn : ∀ rest : CStr, rest.head? ≠ some 32 →
      classify (utf8 "/name" ++ rest) = Command.chat := by
    intro rest hrest
    unfold classify
    rw [utf8_quit, utf8_name_sp, utf8_list, utf8_msg_sp, utf8_msg, utf8_name]
    cases rest with
    | nil => simp [begins_with]
    | cons c rest =>
      have hc : c ≠ 32 := by simpa using hrest
      simp [begins_with, hc]
  refine ⟨hmain buffer, ?_, ?_, ?_⟩
  · intro rest
    refine ⟨hq rest, ?_⟩
    rw [hmain, hq rest]; rfl
  · intro rest
    refine ⟨hl rest, ?_⟩
    rw [hmain, hl rest]; rfl
  · intro rest hrest
    refine ⟨hn rest hrest, ?_⟩
    rw [hmain, hn rest hrest]; rfl

/-! ## Name length and formatted messages -/

set_option maxRecDepth 20000 in
/-- C21 (code at the failing input). 用户3 carries a name of 31 bytes and sends
`/name b`. `old_name` then has no terminator, and the notice continues with the
bytes behind it: with `X`, LF there, the notice holds a newline in its middle;
with 1100 bytes `X` there, the notice is cut at 1087 bytes and does not end
with a newline. -/
theorem rename_notice_reads_past_old_name :
    (long_name_state.clients 2).name = List.replicate 31 97 ∧
    (handle_line long_name_state 2 (utf8 "/name b") (env_stack [88, 10])).1.trace =
      [Event.send 4 (utf8 "[系统] " ++ List.replicate 31 97 ++ [88, 10] ++ utf8 " 改名为 b\n"),
       Event.send 5 (utf8 "[系统] " ++ List.replicate 31 97 ++ [88, 10] ++ utf8 " 改名为 b\n"),
       Event.send 6 (utf8 "[系统] " ++ List.replicate 31 97 ++ [88, 10] ++ utf8 " 改名为 b\n")] ∧
    (handle_line long_name_state 2 (utf8 "/name b")
        (env_stack (List.replicate 1100 88))).1.trace =
      [Event.send 4 (utf8 "[系统] " ++ List.replicate 31 97 ++ List.replicate 1047 88),
       Event.send 5 (utf8 "[系统] " ++ List.replicate 31 97 ++ List.replicate 1047 88),
       Event.send 6 (utf8 "[系统] " ++ List.replicate 31 97 ++ List.replicate 1047 88)] ∧
    (utf8 "[系统] " ++ List.replicate 31 97 ++ List.replicate 1047 88).length
      = BUFFER_SIZE + 64 - 1 := by
  decide

theorem names_fit_of_clients (st st1 : State) (h : names_fit st)
    (hc : ∀ j, ((st1.clients j).name = (st.clients j).name) ∨ strlen (st1.clients j).name ≤ 31) :
    names_fit st1 := by
  intro j
  rcases hc j with e | e
  · rw [e]; exact h j
  · exact e

theorem broadcast_message_name (st : State) (m : CStr) (x : Int) (env : Env)
    (j : Fin MAX_CLIENTS) :
    ((broadcast_message st m x env).clients j).name = (st.clients j).name := by
  rw [(broadcast_message_spec st m x env).2.2 j]
  by_cases hc : (st.clients j).active ≠ 0 ∧ (j.val : Int) ≠ x ∧ env.send_fails j = true
  · rw [if_pos hc]
  · rw [if_neg hc]

theorem send_private_message_name (st : State) (m N : CStr) (s : Fin MAX_CLIENTS) (env : Env)
    (j : Fin MAX_CLIENTS) :
    ((send_private_message st m N s env).clients j).name = (st.clients j).name := by
  cases hf : find_target st N with
  | none => rw [send_private_message_not_found st m N s env hf]; rfl
  | some i =>
    rw [send_private_message_found st m N s i env hf]
    by_cases hs : env.send_fails i = true
    · by_cases hj : j = i
      · subst hj; simp [hs]
      · simp [hs, Function.update_noteq hj]
    · simp [hs]

theorem names_fit_broadcast (st : State) (m : CStr) (x : Int) (env : Env) (h : names_fit st) :
    names_fit (broadcast_message st m x env) :=
  names_fit_of_clients st _ h (fun j => Or.inl (broadcast_message_name st m x env j))

theorem names_fit_remove (st : State) (idx : Fin MAX_CLIENTS) (h : names_fit st) :
    names_fit (remove_client st idx) := by
  apply names_fit_of_clients st _ h
  intro j
  by_cases ha : (st.clients idx).active ≠ 0
  · rw [remove_client_active st idx ha]
    by_cases hj : j = idx
    · subst hj; right; simp [strlen]
    · left; simp [Function.update_noteq hj]
  · rw [remove_client_inactive st idx (by simpa using ha)]
    exact Or.inl rfl

theorem names_fit_set_name (st : State) (idx : Fin MAX_CLIENTS) (s : CStr)
    (hs : s.length ≤ 31) (h : names_fit st) : names_fit (set_name st idx s) := by
  apply names_fit_of_clients st _ h
  intro j
  by_cases hj : j = idx
  · subst hj; right; simpa [set_name, strlen] using hs
  · left; simp [set_name, Function.update_noteq hj]

theorem names_fit_handle_line (st : State) (idx : Fin MAX_CLIENTS) (b : CStr) (env : Env)
    (h : names_fit st) : names_fit (handle_line st idx b env).1 := by
  unfold handle_line
  by_cases h1 : strncmp b (utf8 "/quit") 5 = 0
  · rw [if_pos h1]; exact h
  rw [if_neg h1]
  by_cases h2 : strncmp b (utf8 "/name ") 6 = 0
  · rw [if_pos h2]
    exact names_fit_broadcast _ _ _ _
      (names_fit_set_name st idx _ (List.length_take_le _ _) h)
  rw [if_neg h2]
  by_cases h3 : strncmp b (utf8 "/list") 5 = 0
  · rw [if_pos h3]; exact h
  rw [if_neg h3]
  by_cases h4 : strncmp b (utf8 "/msg ") 5 = 0
  · rw [if_pos h4]
    dsimp only
    split
    · exact h
    · split
      · exact h
      · exact names_fit_of_clients st _ h
          (fun j => Or.inl (send_private_message_name st _ _ idx env j))
  rw [if_neg h4]
  by_cases h6 : strncmp b (utf8 "/msg") 4 = 0
  · rw [if_pos h6]; exact h
  rw [if_neg h6]
  exact names_fit_broadcast _ _ _ _ h

theorem names_fit_handle_recv (st : State) (idx : Fin MAX_CLIENTS) (r : RecvResult) (env : Env)
    (h : names_fit st) : names_fit (handle_recv st idx r env).1 := by
  unfold handle_recv
  by_cases hc : st.server_running = 0 ∨ (st.clients idx).active = 0
  · rw [if_pos hc]; exact h
  · rw [if_neg hc]
    cases r with
    | error => exact h
    | data bytes =>
      by_cases hb : bytes.length = 0
      · simp only [hb, if_true]; exact h
      · by_cases hs : strlen (strip_line bytes) = 0
        · simp only [hb, hs, if_true, if_false]; exact h
        · simp only [hb, hs, if_false]
          exact names_fit_handle_line st idx _ env h

theorem names_fit_exit (st : State) (idx : Fin MAX_CLIENTS) (env : Env) (h : names_fit st) :
    names_fit (handle_client_exit st idx env) :=
  names_fit_broadcast _ _ _ _ (names_fit_remove st idx h)

theorem names_fit_enter (st : State) (idx : Fin MAX_CLIENTS) (env : Env) (h : names_fit st) :
    names_fit (handle_client_enter st idx env) :=
  names_fit_broadcast _ _ _ _ h

theorem names_fit_main_register (st : State) (fd : Int) (addr : sockaddr_in)
    (h : names_fit st) : names_fit (main_register st fd addr).1 := by
  unfold main_register
  cases find_free_slot st with
  | none => exact h
  | some i =>
    apply names_fit_of_clients st _ h
    intro j
    by_cases hj : j = i
    · subst hj; right
      simp [strlen, snprintf]
    · left; simp [Function.update_noteq hj]

theorem names_fit_main_iteration (st : State) (fd : Int) (addr : sockaddr_in) (ok : Bool)
    (h : names_fit st) : names_fit (main_iteration st fd addr ok) := by
  have h1 := names_fit_main_register st fd addr h
  unfold main_iteration
  by_cases hfd : fd < 0
  · rw [if_pos hfd]; exact h
  · rw [if_neg hfd]
    cases hr : main_register st fd addr with
    | mk st1 o =>
      rw [hr] at h1
      cases o with
      | none => exact h1
      | some i =>
        cases ok with
        | true => exact h1
        | false => exact names_fit_remove st1 i h1

theorem names_fit_apply (st : State) (op : Op) (h : names_fit st) :
    names_fit (Op.apply st op) := by
  cases op with
  | connect fd addr ok => exact names_fit_main_iteration st fd addr ok h
  | enter idx env => exact names_fit_enter st idx env h
  | recv idx r env =>
    have h1 := names_fit_handle_recv st idx r env h
    simp only [Op.apply]
    cases hr : handle_recv st idx r env with
    | mk st1 ctl =>
      rw [hr] at h1
      cases ctl with
      | next => exact h1
      | stop => exact names_fit_exit st1 idx env h1
  | broadcast m x env => exact names_fit_broadcast st m x env h
  | remove idx => exact names_fit_remove st idx h
  | shutdown =>
    show names_fit (signal_handler st)
    rw [signal_handler_eq]
    exact h

/-- In every state reached from the empty table every name has at most 31
bytes. -/
theorem names_fit_run (ops : List Op) : names_fit (run init_state ops) := by
  have gen : ∀ (l : List Op) (st : State), names_fit st → names_fit (run st l) := by
    intro l
    induction l with
    | nil => intro st h; exact h
    | cons op l ih =>
      intro st h
      exact ih (Op.apply st op) (names_fit_apply st op h)
  exact gen ops init_state (fun _ => by simp [init_state, strlen])

/-- In a state reached from the empty table, the texts formatted for the
session in slot `s` from a line part `L` of at most 1023 bytes and a name `N` of
at most 31 bytes are stored whole by `snprintf`: chat line, private message,
confirmation, join and departure notice, not-found reply, the roster, and the
rename notice as long as the old name has fewer than 31 bytes. -/
theorem formatted_messages_fit (ops : List Op) (s : Fin MAX_CLIENTS) (L N : CStr)
    (hL : strlen L ≤ BUFFER_SIZE - 1) (hN : strlen N ≤ 31) :
    snprintf (BUFFER_SIZE + 64)
        (utf8 "[" ++ ((run init_state ops).clients s).name ++ utf8 "]: " ++ L ++ utf8 "\n")
      = chat_text ((run init_state ops).clients s).name L ∧
    snprintf (BUFFER_SIZE + 64)
        (utf8 "[私聊][" ++ ((run init_state ops).clients s).name ++ utf8 " -> 你]: " ++ L
          ++ utf8 "\n")
      = private_text ((run init_state ops).clients s).name L ∧
    snprintf (BUFFER_SIZE + 64) (utf8 "[私聊][你 -> " ++ N ++ utf8 "]: " ++ L ++ utf8 "\n")
      = confirm_text N L ∧
    snprintf (BUFFER_SIZE + 64)
        (utf8 "[系统] " ++ ((run init_state ops).clients s).name ++ utf8 " 加入了聊天室\n")
      = join_text ((run init_state ops).clients s).name ∧
    snprintf (BUFFER_SIZE + 64)
        (utf8 "[系统] " ++ ((run init_state ops).clients s).name ++ utf8 " 离开了聊天室\n")
      = leave_text ((run init_state ops).clients s).name ∧
    snprintf 128 (utf8 "[系统] 用户 '" ++ N ++ utf8 "' 不在线或不存在\n") = not_found_text N ∧
    list_message (run init_state ops) s = roster (run init_state ops) s ∧
    (strlen ((run init_state ops).clients s).name < 31 →
      snprintf (BUFFER_SIZE + 64)
          (utf8 "[系统] " ++ ((run init_state ops).clients s).name ++ utf8 " 改名为 " ++ N
            ++ utf8 "\n")
        = rename_text ((run init_state ops).clients s).name N) := by
  have hA := names_fit_run ops s
  exact ⟨chat_text_fits _ L hA hL, private_text_fits _ L hA hL, confirm_text_fits N L hN hL,
    join_text_fits _ hA, leave_text_fits _ hA, not_found_text_fits N hN,
    list_message_eq_roster _ s (fun i _ => names_fit_run ops i),
    fun h => rename_text_fits _ N (le_of_lt h) hN⟩

end ChatServer

/-! ## TIME protocol conversion -/

namespace TimeProtocol

theorem pow_split (w : Nat) (hw : 32 ≤ w) :
    (2 : Int) ^ w = 4294967296 * 2 ^ (w - 32) ∧ (2 : Int) ^ (w - 1) = 2147483648 * 2 ^ (w - 32) ∧
    (1 : Int) ≤ 2 ^ (w - 32) := by
  refine ⟨?_, ?_, ?_⟩
  · have : w = 32 + (w - 32) := by omega
    conv_lhs => rw [this, pow_add]
    norm_num
  · have : w - 1 = 31 + (w - 32) := by omega
    conv_lhs => rw [this, pow_add]
    norm_num
  · exact one_le_pow₀ (by norm_num)

theorem unix_to_time_protocol_eq (w : Nat) (hw : 32 ≤ w) (t : Int) :
    unix_to_time_protocol w t = (t + 2208988800) % 2 ^ 32 := by
  obtain ⟨hP, _, _⟩ := pow_split w hw
  have hdvd : ((2 : Int) ^ 32) ∣ 2 ^ w := by
    rw [hP]; exact ⟨2 ^ (w - 32), by norm_num⟩
  unfold unix_to_time_protocol to_unsigned TIME_OFFSET
  rw [Int.emod_emod_of_dvd _ hdvd, Int.add_emod, Int.emod_emod_of_dvd _ hdvd, ← Int.add_emod]


theorem time_protocol_to_unix_eq (w : Nat) (hw : 32 ≤ w) (v : Int)
    (h1 : -(2 : Int) ^ (w - 1) ≤ v - 2208988800) (h2 : v - 2208988800 < 2 ^ (w - 1)) :
    time_protocol_to_unix w v = v - 2208988800 := by
  obtain ⟨hP, hH, hK⟩ := pow_split w hw
  unfold time_protocol_to_unix to_signed to_unsigned TIME_OFFSET
  rw [Int.emod_add_emod]
  generalize (2 : Int) ^ w = P at hP ⊢
  generalize (2 : Int) ^ (w - 1) = H at hH h1 h2 ⊢
  generalize (2 : Int) ^ (w - 32) = K at hP hH hK
  rw [Int.emod_eq_of_lt (by omega) (by omega)]
  omega

/-- C22. TIME-protocol conversion on a platform whose `long` and `time_t` have
`w ≥ 32` bits. A Unix time `t` (a `time_t` value) with `0 ≤ t + 2208988800 < 2^32`
is recovered from its protocol value; a 32-bit protocol value `v ≥ 2208988800`
is recovered from its Unix time; and for every `t`, inside that range or not,
`unix_to_time_protocol` returns `(t + 2208988800) mod 2^32`. -/
theorem time_round_trip (w : Nat) (hw : 32 ≤ w) :
    (∀ t : Int, -(2 : Int) ^ (w - 1) ≤ t → t < 2 ^ (w - 1) →
      0 ≤ t + 2208988800 → t + 2208988800 < 2 ^ 32 →
      time_protocol_to_unix w (unix_to_time_protocol w t) = t) ∧
    (∀ v : Int, 2208988800 ≤ v → v < 2 ^ 32 →
      unix_to_time_protocol w (time_protocol_to_unix w v) = v) ∧
    (∀ t : Int, unix_to_time_protocol w t = (t + 2208988800) % 2 ^ 32) := by
  obtain ⟨_, hH, hK⟩ := pow_split w hw
  refine ⟨?_, ?_, unix_to_time_protocol_eq w hw⟩
  · intro t h1 h2 h3 h4
    rw [unix_to_time_protocol_eq w hw, Int.emod_eq_of_lt h3 h4,
      time_protocol_to_unix_eq w hw _ (by omega) (by omega)]
    omega
  · intro v h1 h2
    have h2' : v < 4294967296 := by norm_num at h2; exact h2
    rw [time_protocol_to_unix_eq w hw v (by rw [hH]; omega) (by rw [hH]; omega),
      unix_to_time_protocol_eq w hw]
    have e : v - 2208988800 + 2208988800 = v := by omega
    rw [e, Int.emod_eq_of_lt (by omega) h2]

/-- Witness for C22: 64-bit `time_t`, the instant 1700000000 and the protocol
value 4000000000. -/
theorem time_round_trip_witness :
    time_protocol_to_unix 64 (unix_to_time_protocol 64 1700000000) = 1700000000 ∧
    unix_to_time_protocol 64 (time_protocol_to_unix 64 4000000000) = 4000000000 ∧
    unix_to_time_protocol 64 1700000000 = 3908988800 ∧
    unix_to_time_protocol 64 2085978496 = 0 :=
  ⟨(time_round_trip 64 (by decide)).1 1700000000 (by decide) (by decide) (by decide)
      (by decide),
    (time_round_trip 64 (by decide)).2.1 4000000000 (by decide) (by decide),
    by decide, by decide⟩

end TimeProtocol
